import Mathlib

/-!
# Verification of the claims-automaton orchestration core

Shallow embedding of the workflow orchestration core of the
`claims-automaton` repository (Semantic Kernel track, `claims_sk` package):

* `managers.py`      — `ClaimsMagenticManager` (termination policy, stall detection)
* `orchestration.py` — `ClaimsOrchestrator` (three-phase pipeline, pause/resume)
* `session_store.py` — `SessionStore` (durable session persistence)

Modelling decisions, used uniformly below:

* Python JSON-compatible values are modelled by the inductive `Value`
  (`None`, `bool`, `str`, `int`, lists, string-keyed dicts).  Python `==`
  is modelled by structural (decidable) equality; the cross-type Python
  equalities (such as `1 == True`) are not relied on by any statement here.
* Python dicts are modelled as insertion-ordered association lists with
  unique keys maintained by the `ctxSet`/`ctxSetdefault`/`dictUpdate`
  operations (mirroring CPython's insertion-order semantics).
* ISO-8601 timestamps produced by `datetime.utcnow()` are modelled as
  natural numbers; chronological order is `≤` on `Nat`.
* Agent invocations (`agent.invoke(...)`) are external LLM calls; they are
  modelled by an environment `Env` associating role names to behaviours
  `Ctx → List Msg → BehaviorResult`: reading the shared context and the
  transcript, a behaviour may mutate the context (tool plugins write
  context keys), return an optional response message, or raise.
* File I/O performed by `SessionStore` is modelled as a pure map from
  claim id to the triple of persisted artifacts; I/O failures of the host
  filesystem are outside the model.  Python logging calls are omitted
  (they read `context["claim_id"]` after it is known to be present).
-/

mutual

/-- JSON-compatible Python value (`None`, `bool`, `str`, `int`, `list`,
string-keyed `dict`).  Floats do not occur in the modelled code paths.
Lists and dict entry lists are separate inductives (`ValueList`,
`EntryList`) so that decidable equality can be derived. -/
inductive Value where
  | vNull : Value
  | vBool : Bool → Value
  | vStr : String → Value
  | vInt : Int → Value
  | vList : ValueList → Value
  | vDict : EntryList → Value
  deriving DecidableEq, Repr

/-- Spine of a Python list value. -/
inductive ValueList where
  | nil : ValueList
  | cons : Value → ValueList → ValueList
  deriving DecidableEq, Repr

/-- Spine of a Python dict value (key/value entries in insertion order). -/
inductive EntryList where
  | nil : EntryList
  | cons : String → Value → EntryList → EntryList
  deriving DecidableEq, Repr

end

open Value

/-- View a `ValueList` as a Lean list. -/
def ValueList.toList : ValueList → List Value
  | .nil => []
  | .cons v rest => v :: rest.toList

/-- Build a `ValueList` from a Lean list. -/
def ValueList.ofList : List Value → ValueList
  | [] => .nil
  | v :: rest => .cons v (ofList rest)

/-- View an `EntryList` as a Lean association list. -/
def EntryList.toList : EntryList → List (String × Value)
  | .nil => []
  | .cons k v rest => (k, v) :: rest.toList

/-- Build an `EntryList` from a Lean association list. -/
def EntryList.ofList : List (String × Value) → EntryList
  | [] => .nil
  | (k, v) :: rest => .cons k v (ofList rest)

@[simp] theorem ValueList.toList_ofList (xs : List Value) :
    (ValueList.ofList xs).toList = xs := by
  induction xs with
  | nil => rfl
  | cons v rest ih => simp [ValueList.ofList, ValueList.toList, ih]

@[simp] theorem EntryList.entries_toList_ofList (xs : List (String × Value)) :
    (EntryList.ofList xs).toList = xs := by
  induction xs with
  | nil => rfl
  | cons kv rest ih =>
    cases kv
    simp [EntryList.ofList, EntryList.toList, ih]

/-- Shorthand for a Python list value built from a Lean list. -/
def vlist (xs : List Value) : Value := vList (ValueList.ofList xs)

/-- Shorthand for a Python dict value built from a Lean association list. -/
def vdict (xs : List (String × Value)) : Value := vDict (EntryList.ofList xs)

/-- A Python dict with string keys: insertion-ordered association list.
All dicts manipulated by the modelled code are built by `ctxSet` /
`ctxSetdefault` / `dictUpdate`, which keep keys unique. -/
abbrev Ctx := List (String × Value)

/-- `d.get(k)` / `d[k]`: first binding of `k` (unique by construction). -/
def ctxGet : Ctx → String → Option Value
  | [], _ => none
  | (k', v) :: rest, k => if k = k' then some v else ctxGet rest k

/-- `d.get(k, default)`. -/
def ctxGetD (c : Ctx) (k : String) (dflt : Value) : Value :=
  (ctxGet c k).getD dflt

/-- `d[k] = v`: replace the binding in place if the key is present
(keeping its position, CPython semantics), else append. -/
def ctxSet : Ctx → String → Value → Ctx
  | [], k, v => [(k, v)]
  | (k', v') :: rest, k, v =>
    if k = k' then (k', v) :: rest else (k', v') :: ctxSet rest k v

/-- `d.setdefault(k, v)`: insert only when the key is absent; an existing
binding — whatever its value, including `None` — is left untouched. -/
def ctxSetdefault (c : Ctx) (k : String) (v : Value) : Ctx :=
  match ctxGet c k with
  | some _ => c
  | none => ctxSet c k v

/-- `d.update(other)`: fold `d[k] = v` over the other dict's bindings. -/
def dictUpdate (c : Ctx) (other : Ctx) : Ctx :=
  other.foldl (fun acc kv => ctxSet acc kv.1 kv.2) c

/-- Number of bindings of a key (1 for every dict the model builds). -/
def countKey (c : Ctx) (k : String) : Nat :=
  (c.filter (fun kv => kv.1 = k)).length

/-- Python truthiness of a `Value`. -/
def truthy : Value → Bool
  | vNull => false
  | vBool b => b
  | vStr s => !(s = "")
  | vInt n => !(n = 0)
  | vList xs => !(xs = .nil)
  | vDict d => !(d = .nil)

/-- Truthiness of `d.get(k)` (absent key → `None` → falsy). -/
def truthyO : Option Value → Bool
  | none => false
  | some v => truthy v

/-- `len(v)` for sized values; the modelled call sites
(`_should_pause`, `save_session`) only apply it to lists in the runs the
theorems quantify over (enforced by their well-formedness hypotheses). -/
def pyLen : Value → Nat
  | vStr s => s.length
  | vList xs => xs.toList.length
  | vDict d => d.toList.length
  | _ => 0

/-- `str(v)` (f-string interpolation); exact only for strings and the
scalar cases, which is all the verified statements depend on. -/
def pyStr : Value → String
  | vNull => "None"
  | vBool b => if b then "True" else "False"
  | vStr s => s
  | vInt n => toString n
  | vList _ => "[...]"
  | vDict _ => "{...}"

/-- `str(d.get(k))` with Python's `None` rendering for an absent key. -/
def pyStrO : Option Value → String
  | none => "None"
  | some v => pyStr v

/-- Iterating a value (`for x in v`): lists yield elements, strings yield
characters, dicts yield their keys; other values raise `TypeError`. -/
def pyIter : Value → Except String (List Value)
  | vList xs => .ok xs.toList
  | vStr s => .ok (s.toList.map (fun ch => vStr (String.mk [ch])))
  | vDict d => .ok (d.toList.map (fun kv => vStr kv.1))
  | _ => .error "TypeError: object is not iterable"

/-- Test that a value is a Python `str`. -/
def isVStr : Value → Bool
  | vStr _ => true
  | _ => false

/-- `sep.join(xs)`: every element must be a `str`, else `TypeError`. -/
def pyJoin (sep : String) (xs : List Value) : Except String String :=
  if xs.all isVStr then
    .ok (String.intercalate sep (xs.map pyStr))
  else
    .error "TypeError: sequence item: expected str instance"

example : ctxGet [("a", vInt 1), ("b", vInt 2)] "b" = some (vInt 2) := by decide
example : ctxSet [("a", vInt 1)] "a" (vInt 3) = [("a", vInt 3)] := by decide
example : ctxSetdefault [("a", vNull)] "a" (vInt 3) = [("a", vNull)] := by decide
example : truthy (vlist []) = false := by decide
example : pyJoin ", " [vStr "a", vStr "b"] = .ok "a, b" := rfl

/-! ## Messages and transcripts (`semantic_kernel.contents`) -/

/-- Message author role (`AuthorRole`). -/
inductive Role where
  | system : Role
  | user : Role
  | assistant : Role
  | tool : Role
  deriving DecidableEq, Repr

/-- `role.value`: the lowercase string of an `AuthorRole`. -/
def Role.value : Role → String
  | .system => "system"
  | .user => "user"
  | .assistant => "assistant"
  | .tool => "tool"

/-- `ChatMessageContent`: role, text content, optional author name and
a metadata dict. -/
structure Msg where
  role : Role
  content : String
  name : Option String := none
  metadata : Ctx := []
  deriving DecidableEq, Repr

/-- `ChatHistory.messages`: ordered transcript, appended to in place. -/
abbrev Transcript := List Msg

/-! ## `ClaimsMagenticManager` (`managers.py`) -/

/-- One task-ledger record (a plain dict, read with `.get`). -/
abbrev LedgerEntry := Ctx

/-- Task ledger: list of agent-invocation records. -/
abbrev Ledger := List LedgerEntry

/-- `_extract_ledger_state`: comparable state of a ledger entry
(`agent_name`, `result_summary`, `metadata`; timestamps excluded; a
missing key contributes Python `None`, missing `metadata` an empty dict). -/
structure LedgerState where
  agent_name : Value
  result_summary : Value
  metadata : Value
  deriving DecidableEq, Repr

def extractLedgerState (e : LedgerEntry) : LedgerState :=
  { agent_name := ctxGetD e "agent_name" vNull
  , result_summary := ctxGetD e "result_summary" vNull
  , metadata := ctxGetD e "metadata" (vdict []) }

/-- Mutable state and configuration of `ClaimsMagenticManager`. -/
structure Mgr where
  max_rounds : Nat
  stall_threshold : Nat
  enable_human_in_loop : Bool
  round_counter : Nat := 0
  last_ledger_state : Option LedgerState := none
  deriving DecidableEq, Repr

/-- Python slice `xs[-n:]` (for `n = 0` Python yields the whole list). -/
def takeLastPy (n : Nat) (xs : List α) : List α :=
  if n = 0 then xs else xs.drop (xs.length - n)

/-- `len(set(xs))`: number of distinct elements. -/
def pySetCard [DecidableEq α] (xs : List α) : Nat := xs.dedup.length

/-- `ClaimsMagenticManager._is_stalled`.  Returns the verdict together
with the manager, whose `_last_ledger_state` the method may update. -/
def isStalled (m : Mgr) (task_ledger : Ledger) : Bool × Mgr :=
  if task_ledger = [] ∨ task_ledger.length < m.stall_threshold then
    (false, m)
  else
    let recent_agents := (takeLastPy m.stall_threshold task_ledger).map
      (fun e => ctxGet e "agent_name")
    if pySetCard recent_agents = 1 then (true, m)
    else
      match task_ledger.getLast? with
      | none => (false, m)  -- unreachable: the first guard rules out []
      | some lastEntry =>
        let current_state := extractLedgerState lastEntry
        match m.last_ledger_state with
        | some prev =>
          if current_state = prev then (true, m)
          else (false, { m with last_ledger_state := some current_state })
        | none => (false, { m with last_ledger_state := some current_state })

/-- `_set_reason`: `context["termination_reason"] = reason`. -/
def setReason (c : Ctx) (reason : String) : Ctx :=
  ctxSet c "termination_reason" (vStr reason)

/-- `_is_ready_for_handoff`. -/
def isReadyForHandoff (c : Ctx) : Bool :=
  ctxGet c "agent_decision" = some (vStr "approve")
  && ctxGet c "handoff_status" = some (vStr "ready_for_settlement")

/-- `_is_manual_denial` (`denial_package_ready is True`: the bool itself). -/
def isManualDenial (c : Ctx) : Bool :=
  ctxGet c "agent_decision" = some (vStr "deny")
  && ctxGet c "denial_package_ready" = some (vBool true)

/-- `rounds_exhausted`. -/
def roundsExhausted (m : Mgr) : Bool := m.max_rounds ≤ m.round_counter

/-- `record_round`. -/
def recordRound (m : Mgr) : Mgr := { m with round_counter := m.round_counter + 1 }

/-- `reset`. -/
def mgrReset (m : Mgr) : Mgr := { m with round_counter := 0, last_ledger_state := none }

/-- Conditions 5 and 6 of `should_terminate` (reached on every path that
falls through the ledger check). -/
def shouldTerminateTail (m : Mgr) (c : Ctx) : Bool × Ctx × Mgr :=
  if roundsExhausted m then (true, setReason c "max_rounds_exceeded", m)
  else if m.enable_human_in_loop
      && (truthyO (ctxGet c "missing_documents") || truthyO (ctxGet c "missing_information"))
      && !truthyO (ctxGet c "agent_reviewed") then
    (true, setReason c "human_in_loop_required", m)
  else (false, c, m)

/-- `ClaimsMagenticManager.should_terminate`: the six termination
conditions in strict priority order; the first true one records its name
in `context["termination_reason"]`.  Returns the verdict and the updated
context and manager. -/
def shouldTerminate (m : Mgr) (c : Ctx) (task_ledger : Option Ledger) :
    Bool × Ctx × Mgr :=
  if isReadyForHandoff c then (true, setReason c "approved_handoff_ready", m)
  else if isManualDenial c then (true, setReason c "denied_manual", m)
  else if truthyO (ctxGet c "sla_breached") then
    -- `context.setdefault("agent_decision", "deny")` after recording the reason
    (true, ctxSetdefault (setReason c "denied_sla_breach") "agent_decision" (vStr "deny"), m)
  else
    match task_ledger with
    | some tl =>
      -- `if task_ledger and self._signal_if(..., self._is_stalled(task_ledger))`
      if tl = [] then shouldTerminateTail m c
      else
        let stm := isStalled m tl
        if stm.1 then (true, setReason c "stalled", stm.2)
        else shouldTerminateTail stm.2 c
    | none => shouldTerminateTail m c

/-- `status_map` lookup in `gather_final_result` (default `"unknown"`). -/
def statusOfReason (r : String) : String :=
  if r = "approved_handoff_ready" then "approved"
  else if r = "denied_manual" then "denied"
  else if r = "denied_sla_breach" then "denied"
  else if r = "stalled" then "stalled"
  else if r = "max_rounds_exceeded" then "timeout"
  else if r = "human_in_loop_required" then "paused"
  else "unknown"

/-- `_build_settlement_payload`. -/
def buildSettlementPayload (c : Ctx) : Value :=
  vdict [ ("claim_id", ctxGetD c "claim_id" vNull)
        , ("decision", vStr "approve")
        , ("payout_amount", ctxGetD c "approved_amount" vNull)
        , ("agent_id", ctxGetD c "agent_id" vNull)
        , ("decision_timestamp", ctxGetD c "decision_timestamp" vNull)
        , ("confidence_score", ctxGetD c "decision_confidence" (vInt 0))
        , ("fraud_risk", ctxGetD c "risk_score" (vInt 0))
        , ("rationale", ctxGetD c "decision_rationale" (vStr ""))
        , ("attachments", ctxGetD c "evidence_documents" (vlist [])) ]

/-- `_build_denial_payload`. -/
def buildDenialPayload (c : Ctx) : Value :=
  let dr := if truthyO (ctxGet c "sla_breached")
    then (vStr "other", vStr "Claim denied due to SLA breach (timeout)")
    else (ctxGetD c "denial_reason" (vStr "other"), ctxGetD c "decision_rationale" (vStr ""))
  vdict [ ("claim_id", ctxGetD c "claim_id" vNull)
        , ("decision", vStr "deny")
        , ("agent_id", ctxGetD c "agent_id" vNull)
        , ("decision_timestamp", ctxGetD c "decision_timestamp" vNull)
        , ("confidence_score", ctxGetD c "decision_confidence" (vInt 0))
        , ("fraud_risk", ctxGetD c "risk_score" (vInt 0))
        , ("rationale", dr.2)
        , ("attachments", ctxGetD c "evidence_documents" (vlist []))
        , ("denial_reason", dr.1) ]

/-- The structured result dict returned by the orchestrator
(`gather_final_result` / paused / error results); absent keys are `none`. -/
structure RunResult where
  status : String
  termination_reason : Value
  context : Ctx
  chat_history : Transcript
  rounds_executed : Option Nat := none
  handoff_payload : Option Value := none
  missing_documents : Option Value := none
  resume_instructions : Option String := none
  error : Option String := none
  deriving DecidableEq, Repr

/-- `ClaimsMagenticManager.gather_final_result`. -/
def gatherFinalResult (m : Mgr) (c : Ctx) (tr : Transcript) : RunResult :=
  let reason := ctxGetD c "termination_reason" (vStr "unknown")
  let status := match reason with
    | vStr r => statusOfReason r
    | _ => "unknown"
  { status := status
  , termination_reason := reason
  , context := c
  , chat_history := tr
  , rounds_executed := some m.round_counter
  , handoff_payload :=
      if status = "approved" then some (buildSettlementPayload c)
      else if status = "denied" then some (buildDenialPayload c)
      else none }

example :
    (shouldTerminate ⟨15, 3, true, 0, none⟩
      [("agent_decision", vStr "approve"), ("handoff_status", vStr "ready_for_settlement")]
      none).1 = true := by decide
example :
    ctxGet (shouldTerminate ⟨15, 3, true, 0, none⟩
      [("sla_breached", vBool true)] none).2.1 "termination_reason"
      = some (vStr "denied_sla_breach") := by decide
example :
    (isStalled ⟨15, 2, true, 0, none⟩
      [[("agent_name", vStr "a")], [("agent_name", vStr "a")]]).1 = true := by decide

/-! ## `SessionStore` (`session_store.py`) -/

/-- `_serialize_message` output: the JSON object written as one line of
`history.jsonl`. -/
structure SerMsg where
  role : String
  content : String
  name : Option String
  metadata : Ctx
  deriving DecidableEq, Repr

/-- `_serialize_message` (`str(message.role.value)`; a falsy — empty —
content serializes as `""`). -/
def serializeMessage (m : Msg) : SerMsg :=
  { role := m.role.value
  , content := if m.content = "" then "" else m.content
  , name := m.name
  , metadata := m.metadata }

/-- ASCII lowering of one character (`str.lower` acts on the role
strings, which are ASCII). -/
def lowerChar (c : Char) : Char :=
  if 'A' ≤ c ∧ c ≤ 'Z' then Char.ofNat (c.toNat + 32) else c

/-- `s.lower()` (exact on the ASCII strings the code lowers). -/
def pyLower (s : String) : String := String.mk (s.data.map lowerChar)

/-- `role_map` lookup in `_deserialize_message` (default `AuthorRole.USER`). -/
def roleOfString (s : String) : Role :=
  if s = "user" then .user
  else if s = "assistant" then .assistant
  else if s = "system" then .system
  else if s = "tool" then .tool
  else .user

/-- `_deserialize_message` (`.get("role", "user").lower()`, content
default `""`, metadata default `{}`). -/
def deserializeMessage (d : SerMsg) : Msg :=
  { role := roleOfString (pyLower d.role)
  , content := d.content
  , name := d.name
  , metadata := d.metadata }

/-- The three artifacts persisted for one case (`context.json`,
`history.jsonl`, `session.json`).  `json.dump` followed by `json.load`
is the identity on the JSON-compatible `Value`s the model manipulates
(the spec's "JSON coercion" of non-serializable values is vacuous here),
so the artifacts are kept in structured form. -/
structure SessionFiles where
  contextJson : Ctx
  historyLines : List SerMsg
  sessionJson : Ctx
  deriving DecidableEq, Repr

/-- On-disk state of a `SessionStore`: claim id → persisted artifacts. -/
abbrev Store := List (String × SessionFiles)

/-- Look a session directory up. -/
def storeGet : Store → String → Option SessionFiles
  | [], _ => none
  | (k', v) :: rest, k => if k = k' then some v else storeGet rest k

/-- Write a session directory (full overwrite of the three artifacts). -/
def storeSet : Store → String → SessionFiles → Store
  | [], k, v => [(k, v)]
  | (k', v') :: rest, k, v =>
    if k = k' then (k', v) :: rest else (k', v') :: storeSet rest k v

/-- `SessionStore.save_session` (`now` models `datetime.utcnow()`). -/
def saveSession (sto : Store) (claim_id : String) (chat_history : Transcript)
    (context : Ctx) (metadata : Option Ctx) (now : Nat) : Store :=
  let session_metadata : Ctx :=
    [ ("claim_id", vStr claim_id)
    , ("saved_at", vInt now)
    , ("message_count", vInt chat_history.length)
    , ("status", ctxGetD context "state" (vStr "unknown"))
    , ("missing_documents", ctxGetD context "missing_documents" (vlist [])) ]
  let session_metadata := match metadata with
    | some md => if md = [] then session_metadata else dictUpdate session_metadata md
    | none => session_metadata
  storeSet sto claim_id
    { contextJson := context
    , historyLines := chat_history.map serializeMessage
    , sessionJson := session_metadata }

/-- What `load_session` returns on success. -/
structure LoadedSession where
  chat_history : Transcript
  context : Ctx
  metadata : Ctx
  deriving DecidableEq, Repr

/-- `SessionStore.load_session`.  A claim id absent from the store has no
session directory → `None`; every save writes all three artifacts, so the
"directory exists but `session.json` missing" fallback collapses. -/
def loadSession (sto : Store) (claim_id : String) : Option LoadedSession :=
  match storeGet sto claim_id with
  | none => none
  | some files =>
    some { chat_history := files.historyLines.map deserializeMessage
         , context := files.contextJson
         , metadata := files.sessionJson }

/-- `SessionStore.session_exists`. -/
def sessionExists (sto : Store) (claim_id : String) : Bool :=
  (storeGet sto claim_id).isSome

/-- `SessionStore.archive_session` (`now` models `datetime.utcnow()`).
Adds/overwrites `archived_at` in `session.json`, leaving `context.json`
and `history.jsonl` untouched; returns the directory path, `None` when
no session exists. -/
def archiveSession (sto : Store) (claim_id : String) (now : Nat) :
    Option String × Store :=
  match storeGet sto claim_id with
  | none => (none, sto)
  | some files =>
    let metadata := ctxSet files.sessionJson "archived_at" (vInt now)
    (some claim_id, storeSet sto claim_id { files with sessionJson := metadata })

/-! ## `ClaimsOrchestrator` (`orchestration.py`) -/

/-- Result of one external agent invocation: the behaviour may mutate the
shared context (tool plugins write context keys), optionally produce a
response message, or raise (carrying the context as mutated so far). -/
inductive BehaviorResult where
  | ok : Ctx → Option Msg → BehaviorResult
  | raised : String → Ctx → BehaviorResult

/-- External behaviour of one agent: reads the context and the current
messages (`agent.invoke(messages=chat_history.messages)`). -/
def AgentBehavior := Ctx → List Msg → BehaviorResult

/-- The environment: configured agents (role → behaviour), the external
collaborators of the orchestration core. -/
structure Env where
  agents : List (String × AgentBehavior)

/-- `self.agents.get(role)`. -/
def agentsGet : List (String × AgentBehavior) → String → Option AgentBehavior
  | [], _ => none
  | (r, b) :: rest, role => if role = r then some b else agentsGet rest role

/-- An exception propagating inside `process_claim`'s `try` block,
carrying the context and transcript as mutated at the point of raising
(Python mutates them in place, so the `except` handler sees them). -/
structure Failure where
  msg : String
  ctx : Ctx
  tr : Transcript

/-- Lift a plain Python exception to a `Failure` at the current state. -/
def liftPy (c : Ctx) (tr : Transcript) : Except String α → Except Failure α
  | .ok a => .ok a
  | .error e => .error ⟨e, c, tr⟩

/-- `_invoke_agent`: look the role up (an unconfigured role is a no-op
returning `None`), invoke it, append a truthy response to the history;
return the response. -/
def invokeAgent (env : Env) (role : String) (c : Ctx) (tr : Transcript) :
    Except Failure (Ctx × Transcript × Option Msg) :=
  match agentsGet env.agents role with
  | none => .ok (c, tr, none)
  | some beh =>
    match beh c tr with
    | .raised e c' => .error ⟨e, c', tr⟩
    | .ok c' resp =>
      match resp with
      | some m => .ok (c', tr ++ [m], some m)
      | none => .ok (c', tr, none)

/-- Orchestrator configuration (constructor arguments). -/
structure Config where
  max_rounds : Nat := 15
  stall_threshold : Nat := 3
  enable_human_in_loop : Bool := true
  deriving DecidableEq, Repr

/-- The manager built by `ClaimsOrchestrator.__init__`. -/
def mgrInit (cfg : Config) : Mgr :=
  { max_rounds := cfg.max_rounds
  , stall_threshold := cfg.stall_threshold
  , enable_human_in_loop := cfg.enable_human_in_loop }

/-- `_bootstrap_context`: fixed defaults, updated with `claim_data`, then
with the resumed context (resumed values win). -/
def bootstrapContext (claim_data : Ctx) (existing_context : Option Ctx) : Ctx :=
  let base : Ctx :=
    [ ("state", vStr "intake")
    , ("missing_documents", vlist [])
    , ("risk_score", vInt 0)
    , ("fraud_indicators", vlist [])
    , ("assessment_confidence", vInt 0)
    , ("agent_decision", vNull)
    , ("decision_confidence", vInt 0)
    , ("ack_sent", vBool false)
    , ("info_request_sent", vBool false)
    , ("sla_breached", vBool false)
    , ("agent_reviewed", vBool false)
    , ("handoff_status", vStr "pending")
    , ("denial_package_ready", vBool false) ]
  let base := dictUpdate base claim_data
  match existing_context with
  | some ec => dictUpdate base ec
  | none => base

/-- The statements of `process_claim` before its `try` block:
`_initialize_debug_log` — which evaluates `context["claim_id"]` (a
`KeyError` when the key is absent) and records `debug_log_path` — and
the missing-documents system note.  Exceptions raised here escape
`process_claim` uncaught. -/
def preTry (context : Ctx) (chat_history : Transcript) :
    Except String (Ctx × Transcript) :=
  match ctxGet context "claim_id" with
  | none => .error "KeyError: claim_id"
  | some cid =>
    let context := ctxSet context "debug_log_path" (vStr (pyStr cid ++ "_trace.txt"))
    match pyIter (ctxGetD context "missing_documents" (vlist [])) with
    | .error e => .error e
    | .ok missingRaw =>
      let missing_docs := missingRaw.filter truthy
      if missing_docs = [] then
        .ok (context, chat_history)
      else
        let note := String.intercalate "\n"
          ([ "System note: The intake portal did not find these referenced documents."
           , "Please instruct the customer to upload them before the claim can proceed:" ]
           ++ missing_docs.map (fun d => "- " ++ pyStr d))
        .ok (context, chat_history ++ [{ role := .system, content := note }])

/-- `_phase1_sequential_intake`. -/
def phase1 (env : Env) (context : Ctx) (chat_history : Transcript) :
    Except Failure (Ctx × Transcript) := do
  let chat_history :=
    match ctxGet context "original_content" with
    | some oc => chat_history ++
        [{ role := .user, content := "New claim submission:\n\n" ++ pyStr oc }]
    | none => chat_history
  let (context, chat_history, resp) ← invokeAgent env "intake_coordinator" context chat_history
  let context := if resp.isSome then ctxSet context "ack_sent" (vBool true) else context
  let (context, chat_history, _) ← invokeAgent env "policy_specialist" context chat_history
  let (context, chat_history, _) ← invokeAgent env "document_validator" context chat_history
  .ok (ctxSet context "state" (vStr "validation_complete"), chat_history)

/-- The specialist role set (`SPECIALIST_ROLES`).  Python iterates this
`set` in an unspecified order; the model fixes declaration order (no
verified statement depends on the order). -/
def specialistRoles : List String :=
  [ "policy_specialist", "medical_specialist", "fraud_analyst"
  , "claims_history_analyst", "vendor_specialist" ]

/-- One pass of the Phase-2 loop body over the specialists: invoke each,
appending any response to the history. -/
def invokeSpecialists :
    List (String × AgentBehavior) → Ctx → Transcript →
    Except Failure (Ctx × Transcript)
  | [], c, tr => .ok (c, tr)
  | (_, beh) :: rest, c, tr =>
    match beh c tr with
    | .raised e c' => .error ⟨e, c', tr⟩
    | .ok c' resp =>
      let tr := match resp with
        | some m => tr ++ [m]
        | none => tr
      invokeSpecialists rest c' tr

/-- The `while True` loop of `_phase2_magentic_gathering`, with explicit
fuel.  The loop terminates within `max_rounds + 1 - round_counter`
iterations: an iteration either breaks or passes `should_terminate`,
which requires `round_counter < max_rounds`, and `record_round` then
increments the counter.  `phase2` passes exactly that much fuel;
`phase2Loop_fuel_irrelevant` below proves any larger fuel gives the
same result, so the fuel-out branch is semantically invisible. -/
def phase2Loop (specialists : List (String × AgentBehavior)) :
    Nat → Mgr → Ctx → Transcript → Except Failure (Ctx × Transcript × Mgr)
  | 0, m, c, tr => .ok (c, tr, m)
  | fuel + 1, m, c, tr =>
    let stc := shouldTerminate m c none
    if stc.1 then .ok (stc.2.1, tr, stc.2.2)
    else
      match invokeSpecialists specialists stc.2.1 tr with
      | .error f => .error f
      | .ok (c2, tr2) =>
        let m2 := recordRound stc.2.2
        if m2.enable_human_in_loop && truthyO (ctxGet c2 "missing_documents") then
          .ok (c2, tr2, m2)
        else
          phase2Loop specialists fuel m2 c2 tr2

/-- `_phase2_magentic_gathering`. -/
def phase2 (env : Env) (m : Mgr) (context : Ctx) (chat_history : Transcript) :
    Except Failure (Ctx × Transcript × Mgr) :=
  if truthyO (ctxGet context "missing_documents")
      || truthyO (ctxGet context "missing_information") then do
    -- skip Phase 2 entirely; attach a PENDING placeholder handoff note
    let infoPart ←
      if truthyO (ctxGet context "missing_information") then
        liftPy context chat_history (pyIter (ctxGetD context "missing_information" vNull))
      else .ok []
    let docPart ←
      if truthyO (ctxGet context "missing_documents") then
        liftPy context chat_history (pyIter (ctxGetD context "missing_documents" vNull))
      else .ok []
    let joined ← liftPy context chat_history (pyJoin ", " (infoPart ++ docPart))
    let payload := vdict
      [ ("decision", vStr "PENDING")
      , ("notes", vStr ("Awaiting required information/documents from claimant: " ++ joined)) ]
    .ok (ctxSet context "handoff_payload" payload, chat_history, m)
  else
    let context := ctxSet context "state" (vStr "adaptive_gathering")
    let specialists := specialistRoles.filterMap
      (fun r => (agentsGet env.agents r).map (fun b => (r, b)))
    if specialists.isEmpty then .ok (context, chat_history, m)
    else
      match phase2Loop specialists (m.max_rounds + 1 - m.round_counter) m context chat_history with
      | .error f => .error f
      | .ok (c2, tr2, m2) =>
        .ok (ctxSet c2 "state" (vStr "data_gathering_complete"), tr2, m2)

/-- `_phase3_handoff_decision`. -/
def phase3 (env : Env) (context : Ctx) (chat_history : Transcript) :
    Except Failure (Ctx × Transcript) := do
  let (context, chat_history, _) ← invokeAgent env "assessment_agent" context chat_history
  let (context, chat_history, _) ← invokeAgent env "claims_officer" context chat_history
  let (context, chat_history, resp) ← invokeAgent env "handoff_agent" context chat_history
  let context := if resp.isSome
    then ctxSet context "handoff_status" (vStr "ready_for_settlement") else context
  .ok (context, chat_history)

/-- `_should_pause`: human-in-loop enabled and missing documents listed. -/
def shouldPause (cfg : Config) (context : Ctx) : Bool :=
  cfg.enable_human_in_loop
  && 0 < pyLen (ctxGetD context "missing_documents" (vlist []))

/-- `_create_paused_result`. -/
def createPausedResult (context : Ctx) (chat_history : Transcript) : RunResult :=
  { status := "paused"
  , termination_reason := vStr "missing_documents"
  , context := context
  , chat_history := chat_history
  , missing_documents := some (ctxGetD context "missing_documents" (vlist []))
  , resume_instructions := some
      ("To resume claim " ++ pyStrO (ctxGet context "claim_id")
        ++ ", provide the missing documents and call continue_claim() with the claim_id and updated documents.") }

/-- `_save_session_snapshot` (session persistence is always configured:
`__init__` auto-creates a `SessionStore`). -/
def saveSnapshot (sto : Store) (claim_id : String) (chat_history : Transcript)
    (context : Ctx) (status : String) (now : Nat) : Store :=
  saveSession sto claim_id chat_history context
    (some [("status", vStr status), ("paused_at", vInt now)]) now

/-- `_archive_completed_session`: final save with completion metadata,
then `archive_session`. -/
def archiveCompleted (sto : Store) (claim_id : String) (chat_history : Transcript)
    (context : Ctx) (result : RunResult) (now : Nat) : Store :=
  let md : Ctx :=
    [ ("status", vStr "completed")
    , ("final_status", vStr result.status)
    , ("termination_reason", result.termination_reason)
    , ("completed_at", vInt now) ]
  let sto := saveSession sto claim_id chat_history context (some md) now
  (archiveSession sto claim_id now).2

/-- The error `Result` built in `process_claim`'s `except` branch. -/
def mkErrorResult (f : Failure) : RunResult :=
  { status := "error"
  , termination_reason := vStr "exception"
  , error := some f.msg
  , context := f.ctx
  , chat_history := f.tr }

/-- `process_claim` after the Phase-1 pause check: the termination check
guarding Phase 2, the Phase-2 pause check, the termination check guarding
Phase 3, final-result packaging and archival. -/
def afterPhase1 (env : Env) (cfg : Config) (sto : Store) (claim_id : String)
    (m : Mgr) (c : Ctx) (tr : Transcript) (now : Nat) :
    Except Failure (RunResult × Store) :=
  let st1 := shouldTerminate m c none
  match (if st1.1 then (.ok (st1.2.1, tr, st1.2.2) : Except Failure _)
         else phase2 env st1.2.2 st1.2.1 tr) with
  | .error f => .error f
  | .ok (c2, tr2, m2) =>
    if shouldPause cfg c2 then
      .ok (createPausedResult c2 tr2, saveSnapshot sto claim_id tr2 c2 "paused_after_phase2" now)
    else
      let st2 := shouldTerminate m2 c2 none
      match (if st2.1 then (.ok (st2.2.1, tr2) : Except Failure _)
             else phase3 env st2.2.1 tr2) with
      | .error f => .error f
      | .ok (c3, tr3) =>
        let result := gatherFinalResult st2.2.2 c3 tr3
        .ok (result, archiveCompleted sto claim_id tr3 c3 result now)

/-- The body of `process_claim`'s `try` block. -/
def processBody (env : Env) (cfg : Config) (sto : Store) (claim_id : String)
    (m : Mgr) (context : Ctx) (chat_history : Transcript) (now : Nat) :
    Except Failure (RunResult × Store) :=
  match phase1 env context chat_history with
  | .error f => .error f
  | .ok (c1, t1) =>
    if shouldPause cfg c1 then
      .ok (createPausedResult c1 t1, saveSnapshot sto claim_id t1 c1 "paused_after_phase1" now)
    else
      afterPhase1 env cfg sto claim_id m c1 t1 now

/-- `ClaimsOrchestrator.process_claim`.  `.error e` models an exception
escaping `process_claim` (possible only from the statements before the
`try` block); `.ok` carries the structured `Result` and the store after
the run's persistence effects. -/
def processClaim (env : Env) (cfg : Config) (sto : Store) (claim_data : Ctx)
    (chat_history : Option Transcript) (existing_context : Option Ctx) (now : Nat) :
    Except String (RunResult × Store) :=
  let m := mgrReset (mgrInit cfg)
  let context := bootstrapContext claim_data existing_context
  match preTry context (chat_history.getD []) with
  | .error e => .error e
  | .ok (context, tr) =>
    let claim_id := pyStr (ctxGetD context "claim_id" (vStr "UNKNOWN"))
    match processBody env cfg sto claim_id m context tr now with
    | .ok (result, sto') => .ok (result, sto')
    | .error f =>
      .ok (mkErrorResult f, saveSnapshot sto claim_id f.tr f.ctx "error" now)

/-! ## `continue_claim` (resume) -/

/-- `v.get(k)` on a dict value (`AttributeError` on non-dicts, as in
Python where only dicts have `.get`). -/
def dictValueGet (v : Value) (k : String) : Except String (Option Value) :=
  match v with
  | vDict d => .ok (ctxGet d.toList k)
  | _ => .error "AttributeError: object has no attribute get"

/-- `.extend` target: the stored value must be a Python list
(`AttributeError` otherwise). -/
def asPyList : Value → Except String (List Value)
  | vList xs => .ok xs.toList
  | _ => .error "AttributeError: object has no attribute extend"

/-- `{x.get("type") for x in xs if x.get("type")}`: the truthy `type`
values, in order and with duplicates (set semantics enter only through
membership tests and `sorted`, both order-insensitive). -/
def collectTypes : List Value → Except String (List Value)
  | [] => .ok []
  | d :: rest => do
    let t ← dictValueGet d "type"
    let tys ← collectTypes rest
    match t with
    | some tv => if truthy tv then .ok (tv :: tys) else .ok tys
    | none => .ok tys

/-- Insert into a ≤-sorted list of strings. -/
def insertSorted (s : String) : List String → List String
  | [] => [s]
  | t :: rest => if s ≤ t then s :: t :: rest else t :: insertSorted s rest

/-- Python `sorted` on strings (insertion sort). -/
def pySortStrings : List String → List String
  | [] => []
  | s :: rest => insertSorted s (pySortStrings rest)

/-- `sorted(provided_types)`: the set's members must be pairwise
comparable; the modelled runs have all-string types (`TypeError`
otherwise, slightly stricter than Python, which only raises when an
actual cross-type comparison happens). -/
def sortedTypes (tys : List Value) : Except String (List String) :=
  if tys.all isVStr then
    .ok (pySortStrings (tys.map pyStr).dedup)
  else .error "TypeError: unorderable types in sorted()"

/-- One `user` message per provided note
(`Customer provided additional details for {type}: {content}`). -/
def noteMessages : List Value → Except String (List Msg)
  | [] => .ok []
  | n :: rest => do
    let t ← dictValueGet n "type"
    let cnt ← dictValueGet n "content"
    let msgs ← noteMessages rest
    .ok ({ role := .user
         , content := "Customer provided additional details for " ++ pyStrO t
             ++ ": " ++ pyStrO cnt } :: msgs)

/-- The evidence-merge block of `continue_claim`: merge new documents
into `context.documents` and notes into `context.customer_notes`, post
one customer message per note, drop every provided `type` from
`missing_documents`, and post one synthetic system message listing the
provided types. -/
def mergeEvidence (context : Ctx) (chat_history : Transcript)
    (additional_documents : Option Ctx) : Except String (Ctx × Transcript) :=
  match additional_documents with
  | none => .ok (context, chat_history)
  | some ev => do
    let newDocsVal := ctxGetD ev "documents" (vlist [])
    let new_documents ← pyIter newDocsVal
    let context ←
      if truthy newDocsVal then do
        let existing ← asPyList (ctxGetD context "documents" (vlist []))
        pure (ctxSet context "documents" (vlist (existing ++ new_documents)))
      else pure context
    let notesVal := ctxGetD ev "notes" (vlist [])
    let notes ← pyIter notesVal
    let (context, chat_history) ←
      if truthy notesVal then do
        let existing ← asPyList (ctxGetD context "customer_notes" (vlist []))
        let context := ctxSet context "customer_notes" (vlist (existing ++ notes))
        let msgs ← noteMessages notes
        pure (context, chat_history ++ msgs)
      else pure (context, chat_history)
    let docTypes ← collectTypes new_documents
    let noteTypes ← collectTypes notes
    let provided_types := docTypes ++ noteTypes
    if provided_types = [] then .ok (context, chat_history)
    else do
      let missing ← pyIter (ctxGetD context "missing_documents" (vlist []))
      let context := ctxSet context "missing_documents"
        (vlist (missing.filter (fun d => !(decide (d ∈ provided_types)))))
      let sorted ← sortedTypes provided_types
      let sysMsg : Msg :=
        { role := .system
        , content := "Customer has provided additional evidence for: "
            ++ String.intercalate ", " sorted }
      .ok (context, chat_history ++ [sysMsg])

/-- `ClaimsOrchestrator.continue_claim` (the spec's `resume`).  Raises
(`.error`) when no session exists for the claim id — before anything
else runs; otherwise loads the session, merges the evidence, rebuilds
`claim_data` from the merged context and re-enters `process_claim`. -/
def continueClaim (env : Env) (cfg : Config) (sto : Store) (claim_id : String)
    (additional_documents : Option Ctx) (now : Nat) :
    Except String (RunResult × Store) :=
  match storeGet sto claim_id with
  | none => .error ("No saved session found for claim_id: " ++ claim_id)
  | some files =>
    let chat_history := files.historyLines.map deserializeMessage
    let context := files.contextJson
    match mergeEvidence context chat_history additional_documents with
    | .error e => .error e
    | .ok (context, chat_history) =>
      let claim_data : Ctx :=
        [ ("claim_id", vStr claim_id)
        , ("policy_number", ctxGetD context "policy_number" vNull)
        , ("claimant_name", ctxGetD context "claimant_name" vNull)
        , ("incident_date", ctxGetD context "incident_date" vNull)
        , ("documents", ctxGetD context "documents" (vlist [])) ]
      processClaim env cfg sto claim_data (some chat_history) (some context) now

/-! ## Dictionary lemmas -/

theorem ctxGet_ctxSet (c : Ctx) (k k' : String) (v : Value) :
    ctxGet (ctxSet c k v) k' = if k' = k then some v else ctxGet c k' := by
  induction c with
  | nil => by_cases h : k' = k <;> simp [ctxSet, ctxGet, h]
  | cons kv rest ih =>
    obtain ⟨k1, v1⟩ := kv
    by_cases h1 : k = k1
    · subst h1
      by_cases h2 : k' = k <;> simp [ctxSet, ctxGet, h2]
    · by_cases h2 : k' = k1
      · subst h2
        have h3 : ¬ (k' = k) := fun h => h1 h.symm
        simp [ctxSet, ctxGet, h1, h3]
      · simp [ctxSet, ctxGet, h1, h2, ih]

theorem ctxGet_ctxSet_self (c : Ctx) (k : String) (v : Value) :
    ctxGet (ctxSet c k v) k = some v := by
  simp [ctxGet_ctxSet]

theorem ctxGet_ctxSet_ne (c : Ctx) (k k' : String) (v : Value) (h : k' ≠ k) :
    ctxGet (ctxSet c k v) k' = ctxGet c k' := by
  simp [ctxGet_ctxSet, h]

theorem ctxGet_ctxSetdefault_ne (c : Ctx) (k k' : String) (v : Value) (h : k' ≠ k) :
    ctxGet (ctxSetdefault c k v) k' = ctxGet c k' := by
  unfold ctxSetdefault
  cases hg : ctxGet c k with
  | none => simp [ctxGet_ctxSet_ne c k k' v h]
  | some w => rfl

theorem ctxGet_ctxSetdefault_absent (c : Ctx) (k : String) (v : Value)
    (h : ctxGet c k = none) : ctxGet (ctxSetdefault c k v) k = some v := by
  unfold ctxSetdefault
  rw [h]
  exact ctxGet_ctxSet_self c k v

theorem ctxGet_ctxSetdefault_present (c : Ctx) (k : String) (v w : Value)
    (h : ctxGet c k = some w) : ctxGet (ctxSetdefault c k v) k = some w := by
  unfold ctxSetdefault
  rw [h]
  exact h

theorem storeGet_storeSet_self (s : Store) (k : String) (v : SessionFiles) :
    storeGet (storeSet s k v) k = some v := by
  induction s with
  | nil => simp [storeSet, storeGet]
  | cons kv rest ih =>
    obtain ⟨k1, v1⟩ := kv
    by_cases h1 : k = k1 <;> simp [storeSet, storeGet, h1, ih]

theorem countKey_cons (k1 : String) (v1 : Value) (rest : Ctx) (k : String) :
    countKey ((k1, v1) :: rest) k = (if k1 = k then 1 else 0) + countKey rest k := by
  by_cases h : k1 = k
  all_goals simp [countKey, List.filter_cons, h]
  all_goals omega

theorem countKey_ctxSet_of_le_one (c : Ctx) (k : String) (v : Value)
    (h : countKey c k ≤ 1) : countKey (ctxSet c k v) k = 1 := by
  induction c with
  | nil => simp [ctxSet, countKey]
  | cons kv rest ih =>
    obtain ⟨k1, v1⟩ := kv
    rw [countKey_cons] at h
    by_cases h1 : k = k1
    · subst h1
      have h0 : countKey rest k = 0 := by simp at h; omega
      simp [ctxSet, countKey_cons, h0]
    · have h2 : countKey rest k ≤ 1 := by
        simp [Ne.symm h1] at h; omega
      simp [ctxSet, h1, countKey_cons, Ne.symm h1, ih h2]

/-! ## Termination conditions as entry-state predicates (§4.2) -/

/-- Condition 4 at entry: a ledger is supplied, truthy (non-empty), and
`_is_stalled` holds for it in the manager's entry state.  Conditions 1–3
neither read nor write the manager, so evaluating condition 4 on the
entry state agrees with the in-chain evaluation. -/
def stalledCond (m : Mgr) (task_ledger : Option Ledger) : Bool :=
  match task_ledger with
  | some tl => !(tl = []) && (isStalled m tl).1
  | none => false

/-- Condition 6 at entry. -/
def humanInLoopCond (m : Mgr) (c : Ctx) : Bool :=
  m.enable_human_in_loop
  && (truthyO (ctxGet c "missing_documents") || truthyO (ctxGet c "missing_information"))
  && !truthyO (ctxGet c "agent_reviewed")

/-- The six termination conditions of `should_terminate`, in priority
order. -/
def termConds (m : Mgr) (c : Ctx) (l : Option Ledger) : List Bool :=
  [ isReadyForHandoff c, isManualDenial c, truthyO (ctxGet c "sla_breached")
  , stalledCond m l, roundsExhausted m, humanInLoopCond m c ]

/-- The reason name of the lowest-numbered true condition. -/
def priorityReason (m : Mgr) (c : Ctx) (l : Option Ledger) : Option String :=
  if isReadyForHandoff c then some "approved_handoff_ready"
  else if isManualDenial c then some "denied_manual"
  else if truthyO (ctxGet c "sla_breached") then some "denied_sla_breach"
  else if stalledCond m l then some "stalled"
  else if roundsExhausted m then some "max_rounds_exceeded"
  else if humanInLoopCond m c then some "human_in_loop_required"
  else none

/-- `_is_stalled` touches only `_last_ledger_state`: counters and
configuration are preserved. -/
theorem isStalled_preserves (m : Mgr) (tl : Ledger) :
    (isStalled m tl).2.max_rounds = m.max_rounds
    ∧ (isStalled m tl).2.round_counter = m.round_counter
    ∧ (isStalled m tl).2.enable_human_in_loop = m.enable_human_in_loop
    ∧ (isStalled m tl).2.stall_threshold = m.stall_threshold := by
  unfold isStalled
  repeat' split
  all_goals dsimp only
  all_goals try split_ifs
  all_goals simp

theorem roundsExhausted_isStalled (m : Mgr) (tl : Ledger) :
    roundsExhausted (isStalled m tl).2 = roundsExhausted m := by
  unfold roundsExhausted
  rw [(isStalled_preserves m tl).1, (isStalled_preserves m tl).2.1]

theorem humanInLoopCond_isStalled (m : Mgr) (tl : Ledger) (c : Ctx) :
    humanInLoopCond (isStalled m tl).2 c = humanInLoopCond m c := by
  unfold humanInLoopCond
  rw [(isStalled_preserves m tl).2.2.1]

theorem shouldTerminateTail_eq (m : Mgr) (c : Ctx) :
    shouldTerminateTail m c =
      if roundsExhausted m then (true, setReason c "max_rounds_exceeded", m)
      else if humanInLoopCond m c then (true, setReason c "human_in_loop_required", m)
      else (false, c, m) := rfl

theorem shouldTerminate_eq_tail (m : Mgr) (c : Ctx) (l : Option Ledger)
    (h1 : ¬ isReadyForHandoff c) (h2 : ¬ isManualDenial c)
    (h3 : ¬ truthyO (ctxGet c "sla_breached")) (h4 : ¬ stalledCond m l) :
    ∃ m', shouldTerminate m c l = shouldTerminateTail m' c
      ∧ roundsExhausted m' = roundsExhausted m
      ∧ humanInLoopCond m' c = humanInLoopCond m c := by
  cases l with
  | none => exact ⟨m, by simp [shouldTerminate, h1, h2, h3], rfl, rfl⟩
  | some tl =>
    by_cases he : tl = []
    · subst he
      exact ⟨m, by simp [shouldTerminate, h1, h2, h3], rfl, rfl⟩
    · have hf : (isStalled m tl).1 = false := by
        by_contra hc
        exact h4 (by simp [stalledCond, he, Bool.of_not_eq_false hc])
      exact ⟨(isStalled m tl).2,
        by simp [shouldTerminate, h1, h2, h3, he, hf],
        roundsExhausted_isStalled m tl, humanInLoopCond_isStalled m tl c⟩

/-- **C1.** For every context (and manager state and optional ledger) in
which two or more of the six termination conditions hold simultaneously,
`should_terminate` returns true and records in
`context["termination_reason"]` the condition with the lowest-numbered
priority of §4.2's ordered list (`approved_handoff_ready`,
`denied_manual`, `denied_sla_breach`, `stalled`, `max_rounds_exceeded`,
`human_in_loop_required`). -/
theorem shouldTerminate_priority (m : Mgr) (c : Ctx) (l : Option Ledger)
    (h : 2 ≤ (termConds m c l).count true) :
    (shouldTerminate m c l).1 = true
    ∧ ctxGet (shouldTerminate m c l).2.1 "termination_reason"
        = (priorityReason m c l).map vStr := by
  by_cases h1 : isReadyForHandoff c
  · have hst : shouldTerminate m c l = (true, setReason c "approved_handoff_ready", m) := by
      simp [shouldTerminate, h1]
    rw [hst]
    exact ⟨rfl, by simp [setReason, ctxGet_ctxSet_self, priorityReason, h1]⟩
  · by_cases h2 : isManualDenial c
    · have hst : shouldTerminate m c l = (true, setReason c "denied_manual", m) := by
        simp [shouldTerminate, h1, h2]
      rw [hst]
      exact ⟨rfl, by simp [setReason, ctxGet_ctxSet_self, priorityReason, h1, h2]⟩
    · by_cases h3 : truthyO (ctxGet c "sla_breached")
      · have hst : shouldTerminate m c l
            = (true, ctxSetdefault (setReason c "denied_sla_breach") "agent_decision" (vStr "deny"), m) := by
          simp [shouldTerminate, h1, h2, h3]
        rw [hst]
        refine ⟨rfl, ?_⟩
        rw [ctxGet_ctxSetdefault_ne _ _ _ _ (by decide), setReason, ctxGet_ctxSet_self]
        simp [priorityReason, h1, h2, h3]
      · by_cases h4 : stalledCond m l
        · cases l with
          | none => simp [stalledCond] at h4
          | some tl =>
            have h4' := h4
            simp only [stalledCond, Bool.and_eq_true, Bool.not_eq_eq_eq_not, Bool.not_true,
              decide_eq_false_iff_not] at h4'
            obtain ⟨h4a, h4b⟩ := h4'
            have hst : shouldTerminate m c (some tl)
                = (true, setReason c "stalled", (isStalled m tl).2) := by
              simp [shouldTerminate, h1, h2, h3, h4a, h4b]
            rw [hst]
            exact ⟨rfl, by simp [setReason, ctxGet_ctxSet_self, priorityReason, h1, h2, h3, h4]⟩
        · obtain ⟨m', heq, hre, hhc⟩ := shouldTerminate_eq_tail m c l h1 h2 h3 h4
          rw [heq, shouldTerminateTail_eq, hre, hhc]
          by_cases h5 : roundsExhausted m
          · rw [if_pos h5]
            exact ⟨rfl, by simp [setReason, ctxGet_ctxSet_self, priorityReason, h1, h2, h3, h4, h5]⟩
          · rw [if_neg h5]
            by_cases h6 : humanInLoopCond m c
            · rw [if_pos h6]
              exact ⟨rfl, by simp [setReason, ctxGet_ctxSet_self, priorityReason, h1, h2, h3, h4, h5, h6]⟩
            · exfalso
              have e1 : isReadyForHandoff c = false := by simpa using h1
              have e2 : isManualDenial c = false := by simpa using h2
              have e3 : truthyO (ctxGet c "sla_breached") = false := by simpa using h3
              have e4 : stalledCond m l = false := by simpa using h4
              have e5 : roundsExhausted m = false := by simpa using h5
              have e6 : humanInLoopCond m c = false := by simpa using h6
              rw [termConds, e1, e2, e3, e4, e5, e6] at h
              exact absurd h (by decide)

/-- Witness for C1 at the claim's own example: `decision = approve`,
`handoff_status = ready_for_settlement` and `sla_breached = true`
together report `approved_handoff_ready`, not `denied_sla_breach`. -/
theorem shouldTerminate_priority_witness :
    (2 ≤ (termConds ⟨15, 3, true, 0, none⟩
        [("agent_decision", vStr "approve"), ("handoff_status", vStr "ready_for_settlement"),
         ("sla_breached", vBool true)] none).count true)
    ∧ (shouldTerminate ⟨15, 3, true, 0, none⟩
        [("agent_decision", vStr "approve"), ("handoff_status", vStr "ready_for_settlement"),
         ("sla_breached", vBool true)] none).1 = true
    ∧ ctxGet (shouldTerminate ⟨15, 3, true, 0, none⟩
        [("agent_decision", vStr "approve"), ("handoff_status", vStr "ready_for_settlement"),
         ("sla_breached", vBool true)] none).2.1 "termination_reason"
        = (priorityReason ⟨15, 3, true, 0, none⟩
        [("agent_decision", vStr "approve"), ("handoff_status", vStr "ready_for_settlement"),
         ("sla_breached", vBool true)] none).map vStr :=
  ⟨by decide,
   shouldTerminate_priority ⟨15, 3, true, 0, none⟩
     [("agent_decision", vStr "approve"), ("handoff_status", vStr "ready_for_settlement"),
      ("sla_breached", vBool true)] none (by decide)⟩

/-- **C6 counterexample.**  A context whose `agent_decision` is already
`"approve"` (and `handoff_status` still `"pending"`, so only the SLA
condition fires): `should_terminate` fires `denied_sla_breach`, yet the
decision is left at `"approve"` — `dict.setdefault` does not override an
existing value, contradicting "forces the context's decision to deny ...
including contexts where a decision value is already present". -/
theorem sla_breach_keeps_existing_decision :
    (shouldTerminate ⟨15, 3, true, 0, none⟩
        [("agent_decision", vStr "approve"), ("handoff_status", vStr "pending"),
         ("sla_breached", vBool true)] none).1 = true
    ∧ ctxGet (shouldTerminate ⟨15, 3, true, 0, none⟩
        [("agent_decision", vStr "approve"), ("handoff_status", vStr "pending"),
         ("sla_breached", vBool true)] none).2.1 "termination_reason"
        = some (vStr "denied_sla_breach")
    ∧ ctxGet (shouldTerminate ⟨15, 3, true, 0, none⟩
        [("agent_decision", vStr "approve"), ("handoff_status", vStr "pending"),
         ("sla_breached", vBool true)] none).2.1 "agent_decision"
        = some (vStr "approve") := by decide

/-- **C6 (amended).**  Whenever `should_terminate` fires the
`denied_sla_breach` condition (no higher-priority condition holds and
`sla_breached` is truthy), it returns true, records the reason, and sets
`agent_decision` to `"deny"` **only when the context has no
`agent_decision` binding at all** (`dict.setdefault`); an existing
binding — even one holding `None` — is left unchanged. -/
theorem sla_breach_setdefault_decision (m : Mgr) (c : Ctx) (l : Option Ledger)
    (h1 : ¬ isReadyForHandoff c) (h2 : ¬ isManualDenial c)
    (h3 : truthyO (ctxGet c "sla_breached")) :
    (shouldTerminate m c l).1 = true
    ∧ ctxGet (shouldTerminate m c l).2.1 "termination_reason"
        = some (vStr "denied_sla_breach")
    ∧ ctxGet (shouldTerminate m c l).2.1 "agent_decision"
        = (match ctxGet c "agent_decision" with
           | some v => some v
           | none => some (vStr "deny")) := by
  have hst : shouldTerminate m c l
      = (true, ctxSetdefault (setReason c "denied_sla_breach") "agent_decision" (vStr "deny"), m) := by
    simp [shouldTerminate, h1, h2, h3]
  rw [hst]
  have hget : ctxGet (setReason c "denied_sla_breach") "agent_decision"
      = ctxGet c "agent_decision" := by
    rw [setReason, ctxGet_ctxSet_ne _ _ _ _ (by decide)]
  refine ⟨rfl, ?_, ?_⟩
  · rw [ctxGet_ctxSetdefault_ne _ _ _ _ (by decide), setReason, ctxGet_ctxSet_self]
  · cases hd : ctxGet c "agent_decision" with
    | some v => rw [ctxGet_ctxSetdefault_present _ _ _ v (hget.trans hd)]
    | none => rw [ctxGet_ctxSetdefault_absent _ _ _ (hget.trans hd)]

/-- Witness for the amended C6: with no `agent_decision` binding the
decision does become `deny`. -/
theorem sla_breach_setdefault_decision_witness :
    (¬ isReadyForHandoff [("sla_breached", vBool true)])
    ∧ ctxGet (shouldTerminate ⟨15, 3, true, 0, none⟩
        [("sla_breached", vBool true)] none).2.1 "agent_decision"
        = some (vStr "deny") :=
  ⟨by decide,
   by have h := sla_breach_setdefault_decision ⟨15, 3, true, 0, none⟩
        [("sla_breached", vBool true)] none (by decide) (by decide) (by decide)
      rw [h.2.2]; decide⟩

theorem pySetCard_eq_one_iff {α : Type _} [DecidableEq α] (xs : List α) (hne : xs ≠ []) :
    pySetCard xs = 1 ↔ ∃ a, ∀ x ∈ xs, x = a := by
  unfold pySetCard
  constructor
  · intro h
    obtain ⟨a, ha⟩ := List.length_eq_one.mp h
    refine ⟨a, fun x hx => ?_⟩
    have hmem : x ∈ xs.dedup := List.mem_dedup.mpr hx
    rw [ha] at hmem
    simpa using hmem
  · rintro ⟨a, ha⟩
    have hnd : xs.dedup.Nodup := List.nodup_dedup xs
    have hmem : ∀ x ∈ xs.dedup, x = a := fun x hx => ha x (List.mem_dedup.mp hx)
    have hnen : xs.dedup ≠ [] := fun hh => hne ((List.dedup_eq_nil _).mp hh)
    have haux : ∀ (l : List α), l.Nodup → (∀ x ∈ l, x = a) → l ≠ [] → l.length = 1 := by
      intro l hnd2 hmem2 hne2
      match l with
      | [] => exact absurd rfl hne2
      | [b] => rfl
      | b :: c :: rest =>
        exfalso
        have hb := hmem2 b (by simp)
        have hc := hmem2 c (by simp)
        rw [List.nodup_cons] at hnd2
        exact hnd2.1 (by rw [hb, hc]; simp)
    exact haux xs.dedup hnd hmem hnen

/-- The two-entry ledger of the C5 counterexample: its two (i.e. last
`stall_threshold = 2`) entries name different actors. -/
def c5Ledger : Ledger := [[("agent_name", vStr "beta")], [("agent_name", vStr "alfa")]]

/-- **C5 counterexample.**  On a fresh manager with
`stall_threshold = 2`, a first `_is_stalled` call on `c5Ledger` returns
false and records the last entry's comparable state; a second call on
the *same* ledger — whose window still contains two different actor
ids — returns **true** through the unchanged-ledger-state branch,
contradicting "returns false for any ledger whose last stall_threshold
entries contain at least one differing actor id". -/
theorem stall_check_state_branch_fires :
    2 ≤ c5Ledger.length
    ∧ pySetCard ((takeLastPy 2 c5Ledger).map (fun e => ctxGet e "agent_name")) ≠ 1
    ∧ (isStalled ⟨15, 2, true, 0, none⟩ c5Ledger).1 = false
    ∧ (isStalled (isStalled ⟨15, 2, true, 0, none⟩ c5Ledger).2 c5Ledger).1 = true := by
  decide

/-- **C5 (amended).**  For a ledger with at least `stall_threshold ≥ 1`
entries, the stall check returns true whenever the last `stall_threshold`
entries all carry the same actor id; with a differing actor id in that
window it returns false **provided** the manager's stored last-ledger
comparable state differs from (or does not yet exist for) the final
entry's comparable state — otherwise the unchanged-ledger-state branch
still reports a stall. -/
theorem stall_check_same_actor_window (m : Mgr) (tl : Ledger)
    (hth : 1 ≤ m.stall_threshold) (hlen : m.stall_threshold ≤ tl.length) :
    ((∃ a, ∀ e ∈ takeLastPy m.stall_threshold tl, ctxGet e "agent_name" = a) →
      (isStalled m tl).1 = true)
    ∧ ((¬ ∃ a, ∀ e ∈ takeLastPy m.stall_threshold tl, ctxGet e "agent_name" = a) →
       (∀ lastE, tl.getLast? = some lastE →
          m.last_ledger_state ≠ some (extractLedgerState lastE)) →
      (isStalled m tl).1 = false) := by
  have hne : tl ≠ [] := by
    intro hh
    rw [hh] at hlen
    simp at hlen
    omega
  have hg : ¬ (tl = [] ∨ tl.length < m.stall_threshold) := by
    push_neg
    exact ⟨hne, by omega⟩
  have hwin : takeLastPy m.stall_threshold tl ≠ [] := by
    unfold takeLastPy
    rw [if_neg (by omega)]
    intro hh
    rw [List.drop_eq_nil_iff] at hh
    omega
  have hmapne : (takeLastPy m.stall_threshold tl).map (fun e => ctxGet e "agent_name") ≠ [] := by
    simpa using hwin
  have hiff :
      pySetCard ((takeLastPy m.stall_threshold tl).map (fun e => ctxGet e "agent_name")) = 1
      ↔ ∃ a, ∀ e ∈ takeLastPy m.stall_threshold tl, ctxGet e "agent_name" = a := by
    rw [pySetCard_eq_one_iff _ hmapne]
    constructor
    · rintro ⟨a, ha⟩
      exact ⟨a, fun e he => ha _ (List.mem_map.mpr ⟨e, he, rfl⟩)⟩
    · rintro ⟨a, ha⟩
      refine ⟨a, fun x hx => ?_⟩
      obtain ⟨e, he, rfl⟩ := List.mem_map.mp hx
      exact ha e he
  constructor
  · intro hsame
    unfold isStalled
    rw [if_neg hg, if_pos (hiff.mpr hsame)]
  · intro hdiff hstate
    unfold isStalled
    rw [if_neg hg, if_neg (fun hc => hdiff (hiff.mp hc))]
    obtain ⟨lastE, hlast⟩ := Option.isSome_iff_exists.mp
      ((List.getLast?_isSome (l := tl)).mpr hne)
    rw [hlast]
    cases hls : m.last_ledger_state with
    | none => rfl
    | some prev =>
      have hne2 : ¬ (extractLedgerState lastE = prev) := by
        intro hc
        exact hstate lastE hlast (by rw [hls, hc])
      simp [hne2]

/-- Witness for the amended C5: a three-entry ledger whose window repeats
one actor is reported stalled. -/
theorem stall_check_same_actor_window_witness :
    1 ≤ (2 : Nat)
    ∧ (2 : Nat) ≤ ([[("agent_name", vStr "a")], [("agent_name", vStr "a")]] : Ledger).length
    ∧ (isStalled ⟨15, 2, true, 0, none⟩
        [[("agent_name", vStr "a")], [("agent_name", vStr "a")]]).1 = true :=
  ⟨by decide, by decide,
   (stall_check_same_actor_window ⟨15, 2, true, 0, none⟩
      [[("agent_name", vStr "a")], [("agent_name", vStr "a")]]
      (by decide) (by decide)).1
     ⟨some (vStr "a"), by decide⟩⟩

/-! ## Session-store claims -/

theorem roundtrip_msg (mm : Msg) :
    (deserializeMessage (serializeMessage mm)).role = mm.role
    ∧ (deserializeMessage (serializeMessage mm)).content = mm.content := by
  constructor
  · cases hr : mm.role <;>
      simp [serializeMessage, deserializeMessage, Role.value, roleOfString, hr,
        pyLower, lowerChar, String.mk]
  · simp only [serializeMessage, deserializeMessage]
    by_cases hc : mm.content = "" <;> simp [hc]

theorem map_roundtrip (tr : Transcript) :
    ((tr.map serializeMessage).map deserializeMessage).map
        (fun mm => (mm.role, mm.content))
      = tr.map (fun mm => (mm.role, mm.content)) := by
  induction tr with
  | nil => rfl
  | cons x xs ih =>
    simp only [List.map_cons, (roundtrip_msg x).1, (roundtrip_msg x).2, ih]

theorem saveSession_files (sto : Store) (claim_id : String) (tr : Transcript)
    (context : Ctx) (metadata : Option Ctx) (now : Nat) :
    ∃ sj, storeGet (saveSession sto claim_id tr context metadata now) claim_id
      = some ⟨context, tr.map serializeMessage, sj⟩ := by
  unfold saveSession
  exact ⟨_, storeGet_storeSet_self _ _ _⟩

/-- **C4.**  For every context/transcript pair (and metadata and clock),
`save_session` followed by `load_session` returns a context equal to the
saved one (JSON coercion is the identity on the model's JSON-compatible
values) and a transcript containing the same ordered messages, with equal
role and content. -/
theorem save_load_roundtrip (sto : Store) (claim_id : String) (tr : Transcript)
    (context : Ctx) (metadata : Option Ctx) (now : Nat) :
    (loadSession (saveSession sto claim_id tr context metadata now) claim_id).map
        (fun ls => ls.context) = some context
    ∧ (loadSession (saveSession sto claim_id tr context metadata now) claim_id).map
        (fun ls => ls.chat_history.map (fun mm => (mm.role, mm.content)))
      = some (tr.map (fun mm => (mm.role, mm.content))) := by
  obtain ⟨sj, hget⟩ := saveSession_files sto claim_id tr context metadata now
  unfold loadSession
  rw [hget]
  refine ⟨rfl, ?_⟩
  simp only [Option.map_some]
  exact congrArg some (map_roundtrip tr)

theorem archiveSession_step (sto : Store) (claim_id : String) (files : SessionFiles)
    (ts : Nat) (h : storeGet sto claim_id = some files) :
    archiveSession sto claim_id ts
      = (some claim_id,
         storeSet sto claim_id
           { files with sessionJson := ctxSet files.sessionJson "archived_at" (vInt ts) }) := by
  unfold archiveSession
  rw [h]

/-- **C9.**  Archiving an existing session twice never errors, leaves
`session.json` with a single `archived_at` binding holding the second
(not earlier) timestamp, and never touches the persisted context or
transcript. -/
theorem archive_idempotent (sto : Store) (claim_id : String) (files : SessionFiles)
    (ts1 ts2 : Nat)
    (hex : storeGet sto claim_id = some files)
    (hkeys : countKey files.sessionJson "archived_at" ≤ 1)
    (hmono : ts1 ≤ ts2) :
    (archiveSession sto claim_id ts1).1.isSome
    ∧ (archiveSession (archiveSession sto claim_id ts1).2 claim_id ts2).1.isSome
    ∧ ∃ files2,
        storeGet (archiveSession (archiveSession sto claim_id ts1).2 claim_id ts2).2 claim_id
          = some files2
        ∧ countKey files2.sessionJson "archived_at" = 1
        ∧ ctxGet files2.sessionJson "archived_at" = some (vInt ts2)
        ∧ ts1 ≤ ts2
        ∧ files2.contextJson = files.contextJson
        ∧ files2.historyLines = files.historyLines := by
  have e1 := archiveSession_step sto claim_id files ts1 hex
  have hget1 : storeGet (archiveSession sto claim_id ts1).2 claim_id
      = some { files with sessionJson := ctxSet files.sessionJson "archived_at" (vInt ts1) } := by
    rw [e1]
    exact storeGet_storeSet_self _ _ _
  have e2 := archiveSession_step (archiveSession sto claim_id ts1).2 claim_id
    { files with sessionJson := ctxSet files.sessionJson "archived_at" (vInt ts1) } ts2 hget1
  refine ⟨by rw [e1]; rfl, by rw [e2]; rfl, ?_⟩
  refine ⟨{ contextJson := files.contextJson
          , historyLines := files.historyLines
          , sessionJson := ctxSet (ctxSet files.sessionJson "archived_at" (vInt ts1))
              "archived_at" (vInt ts2) }, ?_, ?_, ?_, hmono, rfl, rfl⟩
  · rw [e2]
    exact storeGet_storeSet_self _ _ _
  · exact countKey_ctxSet_of_le_one _ _ _
      (le_of_eq (countKey_ctxSet_of_le_one _ _ _ hkeys))
  · exact ctxGet_ctxSet_self _ _ _

/-- Witness for C9 on a store produced by a real save. -/
theorem archive_idempotent_witness :
    (∃ fs, storeGet (saveSession [] "CLM-9" [] [("state", vStr "terminal")] none 3) "CLM-9"
        = some fs
      ∧ countKey fs.sessionJson "archived_at" ≤ 1)
    ∧ (archiveSession (saveSession [] "CLM-9" [] [("state", vStr "terminal")] none 3)
        "CLM-9" 4).1.isSome := by
  refine ⟨⟨_, rfl, by decide⟩, ?_⟩
  exact (archive_idempotent
    (saveSession [] "CLM-9" [] [("state", vStr "terminal")] none 3) "CLM-9"
    _ 4 5 rfl (by decide) (by decide)).1

/-- **C8.**  `continue_claim` for a claim id with no stored session fails
with the not-found error, identically for every environment — the
processing pipeline is never entered. -/
theorem resume_not_found (env : Env) (cfg : Config) (sto : Store) (claim_id : String)
    (additional_documents : Option Ctx) (now : Nat)
    (h : storeGet sto claim_id = none) :
    continueClaim env cfg sto claim_id additional_documents now
      = .error ("No saved session found for claim_id: " ++ claim_id) := by
  unfold continueClaim
  rw [h]

/-- Witness for C8 on the empty store. -/
theorem resume_not_found_witness :
    storeGet ([] : Store) "CLM-404" = none
    ∧ continueClaim ⟨[]⟩ {} [] "CLM-404" none 0
        = .error ("No saved session found for claim_id: " ++ "CLM-404") :=
  ⟨rfl, resume_not_found ⟨[]⟩ {} [] "CLM-404" none 0 rfl⟩

/-! ## Phase-1 pause (C2) -/

/-- Claim data of the C2 counterexample: a case already marked reviewed,
with a missing document listed. -/
def c2Data : Ctx :=
  [ ("claim_id", vStr "CLM-1")
  , ("missing_documents", vlist [vStr "police_report"])
  , ("agent_reviewed", vBool true) ]

/-- **C2 counterexample.**  A case already marked `agent_reviewed` (so,
per the claim, the run must NOT pause) with a missing document:
`process_claim` nevertheless pauses after Phase 1 — it persists a
`paused_after_phase1` snapshot and returns a paused Result —
because `_should_pause` never consults `agent_reviewed` (nor
`missing_information`). -/
theorem pause_ignores_agent_reviewed :
    ctxGet (bootstrapContext c2Data none) "agent_reviewed" = some (vBool true)
    ∧ (processClaim ⟨[]⟩ {} [] c2Data none none 0).toOption.map
        (fun p => (p.1.status, p.1.termination_reason)) = some ("paused", vStr "missing_documents")
    ∧ (processClaim ⟨[]⟩ {} [] c2Data none none 0).toOption.map
        (fun p => (storeGet p.2 "CLM-1").map (fun f => ctxGet f.sessionJson "status"))
      = some (some (some (vStr "paused_after_phase1"))) := by
  refine ⟨by decide, ?_, ?_⟩ <;> rfl

/-- **C2 (amended).**  After Phase 1 of `process_claim`, the run pauses
— persists a `paused_after_phase1` snapshot and returns a paused Result,
with the rest of the pipeline (Phases 2 and 3) never entered — **iff**
human-in-loop pausing is enabled and the post-Phase-1 context's
`missing_documents` is non-empty; `missing_information` and
`agent_reviewed` play no role in this check. -/
theorem pause_after_phase1_iff_missing_documents
    (env : Env) (cfg : Config) (sto : Store) (claim_data : Ctx)
    (chat_history : Option Transcript) (existing_context : Option Ctx) (now : Nat)
    (ctx1 : Ctx) (tr1 : Transcript) (c1 : Ctx) (t1 : Transcript)
    (hpre : preTry (bootstrapContext claim_data existing_context)
        (chat_history.getD []) = .ok (ctx1, tr1))
    (hp1 : phase1 env ctx1 tr1 = .ok (c1, t1)) :
    processClaim env cfg sto claim_data chat_history existing_context now
      = (if cfg.enable_human_in_loop
            ∧ 0 < pyLen (ctxGetD c1 "missing_documents" (vlist []))
         then .ok (createPausedResult c1 t1,
               saveSnapshot sto (pyStr (ctxGetD ctx1 "claim_id" (vStr "UNKNOWN"))) t1 c1
                 "paused_after_phase1" now)
         else match afterPhase1 env cfg sto (pyStr (ctxGetD ctx1 "claim_id" (vStr "UNKNOWN")))
                 (mgrReset (mgrInit cfg)) c1 t1 now with
              | .ok (result, sto2) => .ok (result, sto2)
              | .error f => .ok (mkErrorResult f,
                  saveSnapshot sto (pyStr (ctxGetD ctx1 "claim_id" (vStr "UNKNOWN"))) f.tr f.ctx
                    "error" now)) := by
  have hcond : (shouldPause cfg c1 = true)
      ↔ (cfg.enable_human_in_loop
          ∧ 0 < pyLen (ctxGetD c1 "missing_documents" (vlist []))) := by
    simp [shouldPause]
  simp only [processClaim, processBody, hpre, hp1]
  by_cases h : cfg.enable_human_in_loop
      ∧ 0 < pyLen (ctxGetD c1 "missing_documents" (vlist []))
  · rw [if_pos (hcond.mpr h), if_pos h]
  · rw [if_neg (fun hb => h (hcond.mp hb)), if_neg h]

/-- Witness inputs for the amended C2. -/
def c2wMid : Ctx × Transcript :=
  (preTry (bootstrapContext c2Data none) []).toOption.getD ([], [])

/-- Post-Phase-1 state of the C2 witness run. -/
def c2wP1out : Ctx × Transcript :=
  (phase1 ⟨[]⟩ c2wMid.1 c2wMid.2).toOption.getD ([], [])

/-- Witness for the amended C2: the hypotheses hold on a concrete run,
and the conclusion instantiates (here the pause branch is taken). -/
theorem pause_after_phase1_iff_missing_documents_witness :
    preTry (bootstrapContext c2Data none) [] = .ok (c2wMid.1, c2wMid.2)
    ∧ phase1 ⟨[]⟩ c2wMid.1 c2wMid.2 = .ok (c2wP1out.1, c2wP1out.2)
    ∧ processClaim ⟨[]⟩ {} [] c2Data none none 0
      = (if ({} : Config).enable_human_in_loop
            ∧ 0 < pyLen (ctxGetD c2wP1out.1 "missing_documents" (vlist []))
         then .ok (createPausedResult c2wP1out.1 c2wP1out.2,
               saveSnapshot [] (pyStr (ctxGetD c2wMid.1 "claim_id" (vStr "UNKNOWN")))
                 c2wP1out.2 c2wP1out.1 "paused_after_phase1" 0)
         else match afterPhase1 ⟨[]⟩ {} [] (pyStr (ctxGetD c2wMid.1 "claim_id" (vStr "UNKNOWN")))
                 (mgrReset (mgrInit {})) c2wP1out.1 c2wP1out.2 0 with
              | .ok (result, sto2) => .ok (result, sto2)
              | .error f => .ok (mkErrorResult f,
                  saveSnapshot [] (pyStr (ctxGetD c2wMid.1 "claim_id" (vStr "UNKNOWN"))) f.tr f.ctx
                    "error" 0)) :=
  ⟨rfl, rfl,
   pause_after_phase1_iff_missing_documents ⟨[]⟩ {} [] c2Data none none 0
     c2wMid.1 c2wMid.2 c2wP1out.1 c2wP1out.2 rfl rfl⟩

/-! ## Error boundary of `process_claim` (C3) -/

/-- **C3 counterexample.**  `process_claim` called with empty claim data
(no `claim_id` anywhere) raises a bare `KeyError` out of
`_initialize_debug_log` — which runs *before* the `try` block — instead
of returning a structured error Result, contradicting "process() never
raises a bare exception past this boundary, for any input". -/
theorem process_raises_without_claim_id :
    processClaim ⟨[]⟩ {} [] [] none none 0 = .error "KeyError: claim_id" := rfl

/-- **C3 (amended).**  Provided the pre-`try` setup succeeds (the
bootstrapped context has a `claim_id` and an iterable
`missing_documents`), `process_claim` never raises: it returns a
structured Result for every environment; and whenever the `try` block's
body (any phase) fails, the returned Result is the error Result carrying
the exception message, with an `error`-status session snapshot persisted.
Errors in the pre-`try` setup, by contrast, escape to the caller
(see the counterexample). -/
theorem process_catches_phase_errors
    (env : Env) (cfg : Config) (sto : Store) (claim_data : Ctx)
    (chat_history : Option Transcript) (existing_context : Option Ctx) (now : Nat)
    (ctx1 : Ctx) (tr1 : Transcript)
    (hpre : preTry (bootstrapContext claim_data existing_context)
        (chat_history.getD []) = .ok (ctx1, tr1)) :
    (∃ r st2, processClaim env cfg sto claim_data chat_history existing_context now
        = .ok (r, st2))
    ∧ (∀ f, processBody env cfg sto (pyStr (ctxGetD ctx1 "claim_id" (vStr "UNKNOWN")))
          (mgrReset (mgrInit cfg)) ctx1 tr1 now = .error f →
        processClaim env cfg sto claim_data chat_history existing_context now
          = .ok (mkErrorResult f,
              saveSnapshot sto (pyStr (ctxGetD ctx1 "claim_id" (vStr "UNKNOWN"))) f.tr f.ctx
                "error" now)) := by
  cases hb : processBody env cfg sto (pyStr (ctxGetD ctx1 "claim_id" (vStr "UNKNOWN")))
      (mgrReset (mgrInit cfg)) ctx1 tr1 now with
  | ok p =>
    refine ⟨⟨p.1, p.2, ?_⟩, ?_⟩
    · simp only [processClaim, hpre, hb]
    · intro f hf
      exact absurd hf (by simp)
  | error f0 =>
    refine ⟨⟨mkErrorResult f0,
      saveSnapshot sto (pyStr (ctxGetD ctx1 "claim_id" (vStr "UNKNOWN"))) f0.tr f0.ctx "error" now,
      ?_⟩, ?_⟩
    · simp only [processClaim, hpre, hb]
    · intro f hf
      injection hf with hf0
      subst hf0
      simp only [processClaim, hpre, hb]

/-- Data and intermediate state for the C3 witness run: the
`intake_coordinator` agent raises during Phase 1. -/
def c3Env : Env := ⟨[("intake_coordinator", fun c _ => .raised "boom" c)]⟩

def c3Data : Ctx := [("claim_id", vStr "CLM-3")]

def c3Mid : Ctx × Transcript :=
  (preTry (bootstrapContext c3Data none) []).toOption.getD ([], [])

/-- The failure `process_claim`'s `try` body produces in the C3 witness run. -/
def c3Fail : Failure :=
  match processBody c3Env {} [] (pyStr (ctxGetD c3Mid.1 "claim_id" (vStr "UNKNOWN")))
      (mgrReset (mgrInit {})) c3Mid.1 c3Mid.2 0 with
  | .error f => f
  | .ok _ => ⟨"", [], []⟩

/-- Witness for the amended C3: a run whose Phase 1 raises ends as a
caught error Result with an error snapshot, not a raise. -/
theorem process_catches_phase_errors_witness :
    preTry (bootstrapContext c3Data none) [] = .ok (c3Mid.1, c3Mid.2)
    ∧ processClaim c3Env {} [] c3Data none none 0
      = .ok (mkErrorResult c3Fail,
          saveSnapshot [] (pyStr (ctxGetD c3Mid.1 "claim_id" (vStr "UNKNOWN")))
            c3Fail.tr c3Fail.ctx "error" 0) :=
  ⟨rfl,
   (process_catches_phase_errors c3Env {} [] c3Data none none 0 c3Mid.1 c3Mid.2 rfl).2
     c3Fail rfl⟩

/-! ## Resume evidence merge (C7) -/

theorem bindOk {ε α β : Type _} (a : α) (f : α → Except ε β) :
    (Except.ok a >>= f : Except ε β) = f a := rfl

theorem bindError {ε α β : Type _} (e : ε) (f : α → Except ε β) :
    (Except.error e >>= f : Except ε β) = .error e := rfl

theorem mem_insertSorted (s t : String) (l : List String) :
    t ∈ insertSorted s l ↔ t = s ∨ t ∈ l := by
  induction l with
  | nil => simp [insertSorted]
  | cons a as ih =>
    by_cases h : s ≤ a
    · simp [insertSorted, h]
    · simp [insertSorted, h, ih]
      tauto

theorem mem_pySortStrings (t : String) (l : List String) :
    t ∈ pySortStrings l ↔ t ∈ l := by
  induction l with
  | nil => simp [pySortStrings]
  | cons a as ih => simp [pySortStrings, mem_insertSorted, ih]

theorem truthy_vlist (xs : List Value) : truthy (vlist xs) = !xs.isEmpty := by
  cases xs <;> simp [vlist, truthy, ValueList.ofList]

/-- **C7.**  For a stored session whose context's `missing_documents`
contains the label `L`, resuming with additional evidence whose
`documents` contain an item of recognized type `L` (a truthy `type`
collected by the merge — `tys` is the collected type list) merges the
evidence so that `missing_documents` no longer contains `L`, appends one
synthetic system message listing the provided (resolved) types — `L`
among them — and re-enters `process_claim` with exactly the merged
context and transcript. -/
theorem resume_merges_evidence
    (env : Env) (cfg : Config) (sto : Store) (claim_id : String) (now : Nat)
    (files : SessionFiles) (ev : Ctx) (L : String)
    (ms : List Value) (docs : List Value) (tys : List Value)
    (hex : storeGet sto claim_id = some files)
    (hms : ctxGet files.contextJson "missing_documents" = some (vlist ms))
    (hL : vStr L ∈ ms)
    (hdocsCtx : ctxGet files.contextJson "documents" = none
        ∨ ∃ xs, ctxGet files.contextJson "documents" = some (vlist xs))
    (hdocs : ctxGet ev "documents" = some (vlist docs))
    (hnotes : ctxGet ev "notes" = none)
    (hcollect : collectTypes docs = .ok tys)
    (htys : tys.all isVStr = true)
    (hLty : vStr L ∈ tys) :
    ∃ c' t',
      mergeEvidence files.contextJson (files.historyLines.map deserializeMessage) (some ev)
        = .ok (c', t')
      ∧ ctxGet c' "missing_documents"
          = some (vlist (ms.filter (fun d => !(decide (d ∈ tys)))))
      ∧ vStr L ∉ ms.filter (fun d => !(decide (d ∈ tys)))
      ∧ t' = files.historyLines.map deserializeMessage
          ++ [{ role := .system
              , content := "Customer has provided additional evidence for: "
                  ++ String.intercalate ", " (pySortStrings (tys.map pyStr).dedup)
              , name := none, metadata := [] }]
      ∧ L ∈ pySortStrings (tys.map pyStr).dedup
      ∧ continueClaim env cfg sto claim_id (some ev) now
          = processClaim env cfg sto
              [ ("claim_id", vStr claim_id)
              , ("policy_number", ctxGetD c' "policy_number" vNull)
              , ("claimant_name", ctxGetD c' "claimant_name" vNull)
              , ("incident_date", ctxGetD c' "incident_date" vNull)
              , ("documents", ctxGetD c' "documents" (vlist [])) ]
              (some t') (some c') now := by
  -- the collected document list is non-empty (it yielded the type `L`)
  have hdocs_ne : docs ≠ [] := by
    intro hd
    subst hd
    simp [collectTypes] at hcollect
    subst hcollect
    simp at hLty
  have htys_ne : ¬ (tys = []) := List.ne_nil_of_mem hLty
  -- the `.extend` target for `context["documents"]`
  obtain ⟨existing, hexist⟩ :
      ∃ xs, asPyList (ctxGetD files.contextJson "documents" (vlist [])) = .ok xs := by
    rcases hdocsCtx with h | ⟨xs, h⟩
    · exact ⟨[], by simp [ctxGetD, h, asPyList, vlist]⟩
    · exact ⟨xs, by simp [ctxGetD, h, asPyList, vlist]⟩
  have hiterdocs : pyIter (ctxGetD ev "documents" (vlist [])) = .ok docs := by
    simp [ctxGetD, hdocs, pyIter, vlist]
  have hiternotes : pyIter (ctxGetD ev "notes" (vlist [])) = .ok [] := by
    simp [ctxGetD, hnotes, pyIter, vlist]
  have htruthy2 : truthy (ctxGetD ev "documents" (vlist [])) = true := by
    simp only [ctxGetD, hdocs, Option.getD_some]
    rw [truthy_vlist]
    simpa using hdocs_ne
  have hfalsenotes : truthy (ctxGetD ev "notes" (vlist [])) = false := by
    simp [ctxGetD, hnotes, truthy, vlist, ValueList.ofList]
  have hitermiss : pyIter (ctxGetD
        (ctxSet files.contextJson "documents" (vlist (existing ++ docs)))
        "missing_documents" (vlist [])) = .ok ms := by
    rw [ctxGetD, ctxGet_ctxSet_ne _ _ _ _ (by decide), hms]
    simp [pyIter, vlist]
  have hmerge : mergeEvidence files.contextJson
        (files.historyLines.map deserializeMessage) (some ev)
      = .ok (ctxSet (ctxSet files.contextJson "documents" (vlist (existing ++ docs)))
               "missing_documents" (vlist (ms.filter (fun d => !(decide (d ∈ tys))))),
             files.historyLines.map deserializeMessage
               ++ [{ role := .system
                   , content := "Customer has provided additional evidence for: "
                       ++ String.intercalate ", " (pySortStrings (tys.map pyStr).dedup)
                   , name := none, metadata := [] }]) := by
    simp only [mergeEvidence, hiterdocs, htruthy2, hexist, hiternotes, hfalsenotes,
      hcollect, collectTypes, bindOk, bindError, List.append_nil, sortedTypes, htys,
      htys_ne, if_true, if_false, ite_true, ite_false, pure, Except.pure]
    rw [if_neg (by simp : ¬ (false = true)), hitermiss, bindOk]
  refine ⟨_, _, hmerge, ?_, ?_, rfl, ?_, ?_⟩
  · rw [ctxGet_ctxSet_self]
  · intro hmem
    rw [List.mem_filter] at hmem
    simp at hmem
    exact hmem.2 hLty
  · rw [mem_pySortStrings, List.mem_dedup]
    exact List.mem_map.mpr ⟨vStr L, hLty, rfl⟩
  · simp only [continueClaim, hex, hmerge]


/-- The stored session of the C7 witness. -/
def c7Files : SessionFiles :=
  { contextJson :=
      [ ("claim_id", vStr "C7")
      , ("missing_documents", vlist [vStr "police_report", vStr "invoice"]) ]
  , historyLines := [{ role := "assistant", content := "hi", name := none, metadata := [] }]
  , sessionJson := [("claim_id", vStr "C7")] }

/-- The additional evidence of the C7 witness. -/
def c7Ev : Ctx :=
  [("documents", vlist [vdict [("type", vStr "police_report"), ("url", vStr "u")]])]

/-- Witness for C7: resuming the stored session with a `police_report`
document removes `"police_report"` from `missing_documents` and posts
the synthetic system message. -/
theorem resume_merges_evidence_witness :
    storeGet [("C7", c7Files)] "C7" = some c7Files
    ∧ collectTypes [vdict [("type", vStr "police_report"), ("url", vStr "u")]]
        = .ok [vStr "police_report"]
    ∧ ∃ c' t',
      mergeEvidence c7Files.contextJson (c7Files.historyLines.map deserializeMessage)
          (some c7Ev)
        = .ok (c', t')
      ∧ ctxGet c' "missing_documents"
          = some (vlist ([vStr "police_report", vStr "invoice"].filter
              (fun d => !(decide (d ∈ [vStr "police_report"])))))
      ∧ vStr "police_report" ∉ [vStr "police_report", vStr "invoice"].filter
              (fun d => !(decide (d ∈ [vStr "police_report"])))
      ∧ t' = c7Files.historyLines.map deserializeMessage
          ++ [{ role := .system
              , content := "Customer has provided additional evidence for: "
                  ++ String.intercalate ", "
                      (pySortStrings ([vStr "police_report"].map pyStr).dedup)
              , name := none, metadata := [] }]
      ∧ "police_report" ∈ pySortStrings ([vStr "police_report"].map pyStr).dedup
      ∧ continueClaim ⟨[]⟩ {} [("C7", c7Files)] "C7" (some c7Ev) 0
          = processClaim ⟨[]⟩ {} [("C7", c7Files)]
              [ ("claim_id", vStr "C7")
              , ("policy_number", ctxGetD c' "policy_number" vNull)
              , ("claimant_name", ctxGetD c' "claimant_name" vNull)
              , ("incident_date", ctxGetD c' "incident_date" vNull)
              , ("documents", ctxGetD c' "documents" (vlist [])) ]
              (some t') (some c') 0 :=
  ⟨rfl, rfl,
   resume_merges_evidence ⟨[]⟩ {} [("C7", c7Files)] "C7" 0 c7Files c7Ev "police_report"
     [vStr "police_report", vStr "invoice"]
     [vdict [("type", vStr "police_report"), ("url", vStr "u")]]
     [vStr "police_report"]
     rfl rfl (by decide) (.inl rfl) rfl rfl rfl (by decide) (by decide)⟩

/-! ## No run ever reports a stall (C10) -/

/-- The context does not record a stalled termination. -/
def reasonNotStalled (c : Ctx) : Prop :=
  ctxGet c "termination_reason" ≠ some (vStr "stalled")

/-- An agent behaviour whose outputs (normal or raised) never record a
stalled termination on a context that had none — in particular any agent
that never writes `termination_reason` at all, which is the
side-effect contract of the repository's agents. -/
def BehaviorPreserves (b : AgentBehavior) : Prop :=
  ∀ c msgs c', reasonNotStalled c →
    ((∃ resp, b c msgs = .ok c' resp) ∨ (∃ e, b c msgs = .raised e c')) →
    reasonNotStalled c'

/-- All configured agents preserve `reasonNotStalled`. -/
def EnvPreserves (env : Env) : Prop :=
  ∀ role b, agentsGet env.agents role = some b → BehaviorPreserves b

theorem rns_ctxSet {c : Ctx} {k : String} {v : Value}
    (hk : k ≠ "termination_reason") (h : reasonNotStalled c) :
    reasonNotStalled (ctxSet c k v) := by
  unfold reasonNotStalled at h ⊢
  rwa [ctxGet_ctxSet_ne _ _ _ _ (Ne.symm hk)]

theorem rns_setReason {c : Ctx} {r : String} (hr : r ≠ "stalled") :
    reasonNotStalled (setReason c r) := by
  unfold reasonNotStalled setReason
  rw [ctxGet_ctxSet_self]
  intro h
  injection h with h
  injection h with h
  exact hr h

theorem rns_ctxSetdefault {c : Ctx} {k : String} {v : Value}
    (hk : k ≠ "termination_reason") (h : reasonNotStalled c) :
    reasonNotStalled (ctxSetdefault c k v) := by
  unfold ctxSetdefault
  cases ctxGet c k with
  | some w => exact h
  | none => exact rns_ctxSet hk h

theorem shouldTerminate_none_mgr (m : Mgr) (c : Ctx) :
    (shouldTerminate m c none).2.2 = m := by
  unfold shouldTerminate shouldTerminateTail
  repeat' split
  all_goals first
    | rfl
    | (exfalso; simp_all)

theorem rns_shouldTerminateTail (m : Mgr) (c : Ctx) (h : reasonNotStalled c) :
    reasonNotStalled (shouldTerminateTail m c).2.1 := by
  unfold shouldTerminateTail
  split
  · exact rns_setReason (by decide)
  · split
    · exact rns_setReason (by decide)
    · exact h

theorem rns_shouldTerminate_none (m : Mgr) (c : Ctx) (h : reasonNotStalled c) :
    reasonNotStalled (shouldTerminate m c none).2.1 := by
  unfold shouldTerminate
  split
  · exact rns_setReason (by decide)
  · split
    · exact rns_setReason (by decide)
    · split
      · exact rns_ctxSetdefault (by decide) (rns_setReason (by decide))
      · exact rns_shouldTerminateTail m c h

/-- `reasonNotStalled` through a phase-shaped result. -/
def exceptRNS : Except Failure (Ctx × Transcript) → Prop
  | .ok p => reasonNotStalled p.1
  | .error f => reasonNotStalled f.ctx

/-- `reasonNotStalled` through a Phase-2-shaped result. -/
def exceptRNS3 : Except Failure (Ctx × Transcript × Mgr) → Prop
  | .ok p => reasonNotStalled p.1
  | .error f => reasonNotStalled f.ctx

theorem rns_invokeAgent {env : Env} (henv : EnvPreserves env) (role : String)
    {c : Ctx} (tr : Transcript) (h : reasonNotStalled c) :
    exceptRNS ((invokeAgent env role c tr).map (fun p => (p.1, p.2.1))) := by
  cases hb : agentsGet env.agents role with
  | none => simp only [invokeAgent, hb, Except.map, exceptRNS]; exact h
  | some b =>
    cases hres : b c tr with
    | raised e cx =>
      simp only [invokeAgent, hb, hres, Except.map, exceptRNS]
      exact henv role b hb c tr cx h (Or.inr ⟨e, hres⟩)
    | ok cx resp =>
      have hp := henv role b hb c tr cx h (Or.inl ⟨resp, hres⟩)
      cases resp <;> simp only [invokeAgent, hb, hres, Except.map, exceptRNS] <;> exact hp

theorem rns_invokeAgent_ok {env : Env} (henv : EnvPreserves env) (role : String)
    {c : Ctx} {tr : Transcript} {p : Ctx × Transcript × Option Msg}
    (h : reasonNotStalled c) (heq : invokeAgent env role c tr = .ok p) :
    reasonNotStalled p.1 := by
  have hm := rns_invokeAgent henv role tr h
  rw [heq] at hm
  simpa [Except.map, exceptRNS] using hm

theorem rns_invokeAgent_err {env : Env} (henv : EnvPreserves env) (role : String)
    {c : Ctx} {tr : Transcript} {f : Failure}
    (h : reasonNotStalled c) (heq : invokeAgent env role c tr = .error f) :
    reasonNotStalled f.ctx := by
  have hm := rns_invokeAgent henv role tr h
  rw [heq] at hm
  simpa [Except.map, exceptRNS] using hm

theorem exceptRNS_bind {β : Type _} {x : Except Failure β}
    {k : β → Except Failure (Ctx × Transcript)}
    (hx : ∀ f, x = .error f → reasonNotStalled f.ctx)
    (hk : ∀ b, x = .ok b → exceptRNS (k b)) :
    exceptRNS (x >>= k) := by
  cases x with
  | error f => simpa [bindError, exceptRNS] using hx f rfl
  | ok b => simpa [bindOk] using hk b rfl

theorem exceptRNS3_bind {β : Type _} {x : Except Failure β}
    {k : β → Except Failure (Ctx × Transcript × Mgr)}
    (hx : ∀ f, x = .error f → reasonNotStalled f.ctx)
    (hk : ∀ b, x = .ok b → exceptRNS3 (k b)) :
    exceptRNS3 (x >>= k) := by
  cases x with
  | error f => simpa [bindError, exceptRNS3] using hx f rfl
  | ok b => simpa [bindOk] using hk b rfl

theorem liftPy_error_ctx {α : Type _} {c : Ctx} {tr : Transcript}
    {x : Except String α} {f : Failure} (h : liftPy c tr x = .error f) :
    f.ctx = c := by
  cases x with
  | ok a => simp [liftPy] at h
  | error e =>
    simp [liftPy] at h
    rw [← h]

theorem rns_phase1 {env : Env} (henv : EnvPreserves env) {c : Ctx} (tr : Transcript)
    (h : reasonNotStalled c) : exceptRNS (phase1 env c tr) := by
  unfold phase1
  apply exceptRNS_bind
  · intro f hf
    exact rns_invokeAgent_err henv _ h hf
  · rintro ⟨c1, tr1, resp1⟩ h1
    have hc1 := rns_invokeAgent_ok henv _ h h1
    have hc1' : reasonNotStalled
        (if resp1.isSome then ctxSet c1 "ack_sent" (vBool true) else c1) := by
      cases resp1
      · simpa using hc1
      · simpa using rns_ctxSet (by decide) hc1
    apply exceptRNS_bind
    · intro f hf
      exact rns_invokeAgent_err henv _ hc1' hf
    · rintro ⟨c2, tr2, r2⟩ h2
      have hc2 := rns_invokeAgent_ok henv _ hc1' h2
      apply exceptRNS_bind
      · intro f hf
        exact rns_invokeAgent_err henv _ hc2 hf
      · rintro ⟨c3, tr3, r3⟩ h3
        have hc3 := rns_invokeAgent_ok henv _ hc2 h3
        simpa [exceptRNS] using rns_ctxSet (by decide) hc3

theorem rns_phase3 {env : Env} (henv : EnvPreserves env) {c : Ctx} (tr : Transcript)
    (h : reasonNotStalled c) : exceptRNS (phase3 env c tr) := by
  unfold phase3
  apply exceptRNS_bind
  · intro f hf
    exact rns_invokeAgent_err henv _ h hf
  · rintro ⟨c1, tr1, r1⟩ h1
    have hc1 := rns_invokeAgent_ok henv _ h h1
    apply exceptRNS_bind
    · intro f hf
      exact rns_invokeAgent_err henv _ hc1 hf
    · rintro ⟨c2, tr2, r2⟩ h2
      have hc2 := rns_invokeAgent_ok henv _ hc1 h2
      apply exceptRNS_bind
      · intro f hf
        exact rns_invokeAgent_err henv _ hc2 hf
      · rintro ⟨c3, tr3, r3⟩ h3
        have hc3 := rns_invokeAgent_ok henv _ hc2 h3
        cases r3
        · simpa [exceptRNS] using hc3
        · simpa [exceptRNS] using rns_ctxSet (by decide) hc3

theorem rns_invokeSpecialists (specs : List (String × AgentBehavior))
    (hspecs : ∀ p ∈ specs, BehaviorPreserves p.2) :
    ∀ {c : Ctx} (tr : Transcript), reasonNotStalled c →
      exceptRNS (invokeSpecialists specs c tr) := by
  induction specs with
  | nil =>
    intro c tr h
    simpa [invokeSpecialists, exceptRNS] using h
  | cons p rest ih =>
    intro c tr h
    obtain ⟨r, beh⟩ := p
    have hb : BehaviorPreserves beh := hspecs (r, beh) (by simp)
    cases hres : beh c tr with
    | raised e cx =>
      simp only [invokeSpecialists, hres, exceptRNS]
      exact hb c tr cx h (Or.inr ⟨e, hres⟩)
    | ok cx resp =>
      have hcx := hb c tr cx h (Or.inl ⟨resp, hres⟩)
      cases resp <;> simp only [invokeSpecialists, hres] <;>
        exact ih (fun q hq => hspecs q (List.mem_cons_of_mem _ hq)) _ hcx

theorem rns_phase2Loop (specs : List (String × AgentBehavior))
    (hspecs : ∀ p ∈ specs, BehaviorPreserves p.2) :
    ∀ (fuel : Nat) (m : Mgr) (c : Ctx) (tr : Transcript), reasonNotStalled c →
      exceptRNS3 (phase2Loop specs fuel m c tr) := by
  intro fuel
  induction fuel with
  | zero =>
    intro m c tr h
    simpa [phase2Loop, exceptRNS3] using h
  | succ fuel ih =>
    intro m c tr h
    have hstc := rns_shouldTerminate_none m c h
    by_cases hb : (shouldTerminate m c none).1 = true
    · simpa [phase2Loop, hb, exceptRNS3] using hstc
    · rw [Bool.not_eq_true] at hb
      cases hinv : invokeSpecialists specs (shouldTerminate m c none).2.1 tr with
      | error f =>
        have := rns_invokeSpecialists specs hspecs tr hstc
        rw [hinv] at this
        simpa [phase2Loop, hb, hinv, exceptRNS3] using this
      | ok p =>
        have hp : reasonNotStalled p.1 := by
          have := rns_invokeSpecialists specs hspecs tr hstc
          rwa [hinv] at this
        obtain ⟨c2, tr2⟩ := p
        by_cases hbrk : (recordRound (shouldTerminate m c none).2.2).enable_human_in_loop
            && truthyO (ctxGet c2 "missing_documents")
        · simpa [phase2Loop, hb, hinv, hbrk, exceptRNS3] using hp
        · rw [Bool.not_eq_true] at hbrk
          have := ih (recordRound (shouldTerminate m c none).2.2) c2 tr2 hp
          simpa [phase2Loop, hb, hinv, hbrk, exceptRNS3] using this

theorem rns_pendingTail (c : Ctx) (tr : Transcript) (m : Mgr)
    (h : reasonNotStalled c) (items : List Value) :
    exceptRNS3 (liftPy c tr (pyJoin ", " items) >>= fun joined =>
      Except.ok (ctxSet c "handoff_payload" (vdict
        [ ("decision", vStr "PENDING")
        , ("notes", vStr ("Awaiting required information/documents from claimant: "
            ++ joined)) ]), tr, m)) := by
  apply exceptRNS3_bind
  · intro f hf
    rw [liftPy_error_ctx hf]
    exact h
  · intro j hj
    simpa [exceptRNS3] using rns_ctxSet (by decide) h

theorem rns_phase2 {env : Env} (henv : EnvPreserves env) (m : Mgr) {c : Ctx}
    (tr : Transcript) (h : reasonNotStalled c) : exceptRNS3 (phase2 env m c tr) := by
  unfold phase2
  split
  · -- the PENDING placeholder branch
    by_cases hinfo : truthyO (ctxGet c "missing_information") = true
    all_goals by_cases hdoc : truthyO (ctxGet c "missing_documents") = true
    all_goals simp only [hinfo, hdoc, if_true, if_false, bindOk,
      Bool.false_eq_true, ite_false, ite_true]
    all_goals
      repeat'
        first
          | exact rns_pendingTail c tr m h _
          | (apply exceptRNS3_bind (fun f hf => by rw [liftPy_error_ctx hf]; exact h)
             intro b hb)
  · -- the adaptive loop branch
    have hset : reasonNotStalled (ctxSet c "state" (vStr "adaptive_gathering")) :=
      rns_ctxSet (by decide) h
    have hspecs : ∀ p ∈ specialistRoles.filterMap
        (fun r => (agentsGet env.agents r).map (fun b => (r, b))), BehaviorPreserves p.2 := by
      intro p hp
      obtain ⟨r, hr, hpr⟩ := List.mem_filterMap.mp hp
      cases hag : agentsGet env.agents r with
      | none => rw [hag] at hpr; simp at hpr
      | some b =>
        rw [hag] at hpr
        simp at hpr
        subst hpr
        exact henv r b hag
    by_cases hempty : (specialistRoles.filterMap
        (fun r => (agentsGet env.agents r).map (fun b => (r, b)))).isEmpty = true
    · simpa [hempty, exceptRNS3] using hset
    · cases hloop : phase2Loop (specialistRoles.filterMap
          (fun r => (agentsGet env.agents r).map (fun b => (r, b))))
          (m.max_rounds + 1 - m.round_counter) m
          (ctxSet c "state" (vStr "adaptive_gathering")) tr with
      | error f =>
        have := rns_phase2Loop _ hspecs (m.max_rounds + 1 - m.round_counter) m
          (ctxSet c "state" (vStr "adaptive_gathering")) tr hset
        rw [hloop] at this
        simpa [hempty, hloop, exceptRNS3] using this
      | ok p =>
        have hp : reasonNotStalled p.1 := by
          have := rns_phase2Loop _ hspecs (m.max_rounds + 1 - m.round_counter) m
            (ctxSet c "state" (vStr "adaptive_gathering")) tr hset
          rwa [hloop] at this
        obtain ⟨c2, tr2, m2⟩ := p
        simpa [hempty, hloop, exceptRNS3] using rns_ctxSet (by decide) hp

theorem statusOfReason_eq_stalled {r : String} (h : statusOfReason r = "stalled") :
    r = "stalled" := by
  unfold statusOfReason at h
  split_ifs at h <;> first | (exact absurd h (by decide)) | assumption

theorem gatherFinal_not_stalled (m : Mgr) (c : Ctx) (tr : Transcript)
    (h : reasonNotStalled c) :
    (gatherFinalResult m c tr).termination_reason ≠ vStr "stalled"
    ∧ (gatherFinalResult m c tr).status ≠ "stalled" := by
  have hreason : ctxGetD c "termination_reason" (vStr "unknown") ≠ vStr "stalled" := by
    unfold ctxGetD
    cases hg : ctxGet c "termination_reason" with
    | none => simp
    | some v =>
      simp only [Option.getD_some]
      intro hv
      exact h (by rw [hg, hv])
  constructor
  · simpa [gatherFinalResult] using hreason
  · simp only [gatherFinalResult]
    cases hv : ctxGetD c "termination_reason" (vStr "unknown") with
    | vStr r =>
      intro hs
      have hr := statusOfReason_eq_stalled hs
      rw [hv] at hreason
      exact hreason (by rw [hr])
    | vNull => decide
    | vBool b => simp
    | vInt n => simp
    | vList xs => simp
    | vDict d => simp

theorem rns_preTry {c0 : Ctx} {tr0 : Transcript} {ctx1 : Ctx} {tr1 : Transcript}
    (h0 : reasonNotStalled c0)
    (h : preTry c0 tr0 = .ok (ctx1, tr1)) : reasonNotStalled ctx1 := by
  unfold preTry at h
  cases hcid : ctxGet c0 "claim_id" with
  | none => rw [hcid] at h; simp at h
  | some cid =>
    rw [hcid] at h
    dsimp only at h
    cases hit : pyIter (ctxGetD
        (ctxSet c0 "debug_log_path" (vStr (pyStr cid ++ "_trace.txt")))
        "missing_documents" (vlist [])) with
    | error e => rw [hit] at h; simp at h
    | ok l =>
      rw [hit] at h
      split at h
      · rename_i e heq
        simp at heq
      · split at h <;>
          (simp only [Except.ok.injEq, Prod.mk.injEq] at h
           obtain ⟨h1, -⟩ := h
           rw [← h1]
           exact rns_ctxSet (by decide) h0)

theorem afterPhase1_ok_not_stalled {env : Env} (henv : EnvPreserves env)
    (cfg : Config) (sto : Store) (cid : String) (m : Mgr) {c : Ctx} (tr : Transcript)
    (now : Nat) (h : reasonNotStalled c) :
    ∀ result st2, afterPhase1 env cfg sto cid m c tr now = .ok (result, st2) →
      result.termination_reason ≠ vStr "stalled" ∧ result.status ≠ "stalled" := by
  intro result st2 hres
  unfold afterPhase1 at hres
  dsimp only at hres
  have hc' := rns_shouldTerminate_none m c h
  cases h2 : (if (shouldTerminate m c none).1 = true
      then (.ok ((shouldTerminate m c none).2.1, tr, (shouldTerminate m c none).2.2)
        : Except Failure (Ctx × Transcript × Mgr))
      else phase2 env (shouldTerminate m c none).2.2 (shouldTerminate m c none).2.1 tr) with
  | error f =>
    rw [h2] at hres
    simp at hres
  | ok p =>
    obtain ⟨c2, tr2, m2⟩ := p
    have hc2 : reasonNotStalled c2 := by
      by_cases hb : (shouldTerminate m c none).1 = true
      · rw [if_pos hb] at h2
        simp only [Except.ok.injEq, Prod.mk.injEq] at h2
        rw [← h2.1]
        exact hc'
      · rw [if_neg hb] at h2
        have := rns_phase2 henv (shouldTerminate m c none).2.2 tr hc'
        rw [h2] at this
        simpa [exceptRNS3] using this
    rw [h2] at hres
    dsimp only at hres
    by_cases hp : shouldPause cfg c2 = true
    · rw [if_pos hp] at hres
      simp only [Except.ok.injEq, Prod.mk.injEq] at hres
      obtain ⟨h1, -⟩ := hres
      rw [← h1]
      constructor
      · show vStr "missing_documents" ≠ vStr "stalled"
        decide
      · show "paused" ≠ "stalled"
        decide
    · rw [if_neg hp] at hres
      have hc3' := rns_shouldTerminate_none m2 c2 hc2
      cases h3 : (if (shouldTerminate m2 c2 none).1 = true
          then (.ok ((shouldTerminate m2 c2 none).2.1, tr2) : Except Failure (Ctx × Transcript))
          else phase3 env (shouldTerminate m2 c2 none).2.1 tr2) with
      | error f =>
        rw [h3] at hres
        simp at hres
      | ok q =>
        obtain ⟨c3, tr3⟩ := q
        have hc3 : reasonNotStalled c3 := by
          by_cases hb : (shouldTerminate m2 c2 none).1 = true
          · rw [if_pos hb] at h3
            simp only [Except.ok.injEq, Prod.mk.injEq] at h3
            rw [← h3.1]
            exact hc3'
          · rw [if_neg hb] at h3
            have := rns_phase3 henv tr2 hc3'
            rw [h3] at this
            simpa [exceptRNS] using this
        rw [h3] at hres
        dsimp only at hres
        simp only [Except.ok.injEq, Prod.mk.injEq] at hres
        obtain ⟨h1, -⟩ := hres
        rw [← h1]
        exact gatherFinal_not_stalled _ _ _ hc3

theorem processBody_ok_not_stalled {env : Env} (henv : EnvPreserves env)
    (cfg : Config) (sto : Store) (cid : String) (m : Mgr) {c : Ctx} (tr : Transcript)
    (now : Nat) (h : reasonNotStalled c) :
    ∀ result st2, processBody env cfg sto cid m c tr now = .ok (result, st2) →
      result.termination_reason ≠ vStr "stalled" ∧ result.status ≠ "stalled" := by
  intro result st2 hres
  unfold processBody at hres
  cases h1 : phase1 env c tr with
  | error f =>
    rw [h1] at hres
    simp at hres
  | ok p =>
    obtain ⟨c1, t1⟩ := p
    have hc1 : reasonNotStalled c1 := by
      have := rns_phase1 henv tr h
      rw [h1] at this
      simpa [exceptRNS] using this
    rw [h1] at hres
    dsimp only at hres
    by_cases hp : shouldPause cfg c1 = true
    · rw [if_pos hp] at hres
      simp only [Except.ok.injEq, Prod.mk.injEq] at hres
      obtain ⟨h2, -⟩ := hres
      rw [← h2]
      constructor
      · show vStr "missing_documents" ≠ vStr "stalled"
        decide
      · show "paused" ≠ "stalled"
        decide
    · rw [if_neg hp] at hres
      exact afterPhase1_ok_not_stalled henv cfg sto cid m t1 now hc1 result st2 hres

/-- **C10.**  `process_claim` consults `should_terminate` with the
context only — never supplying a task ledger, so that call leaves the
manager untouched and can never record the `stalled` reason — and, for
every environment whose agents do not themselves write a stalled
termination reason and every input whose resumed context carries none,
no Result returned by `process_claim` has termination reason or status
`"stalled"`. -/
theorem process_never_stalled
    (env : Env) (cfg : Config) (sto : Store) (claim_data : Ctx)
    (chat_history : Option Transcript) (existing_context : Option Ctx) (now : Nat)
    (henv : EnvPreserves env)
    (hboot : reasonNotStalled (bootstrapContext claim_data existing_context)) :
    (∀ m c, (shouldTerminate m c none).2.2 = m
        ∧ (reasonNotStalled c → reasonNotStalled (shouldTerminate m c none).2.1))
    ∧ ∀ r st2, processClaim env cfg sto claim_data chat_history existing_context now
          = .ok (r, st2) →
        r.termination_reason ≠ vStr "stalled" ∧ r.status ≠ "stalled" := by
  refine ⟨fun m c => ⟨shouldTerminate_none_mgr m c, fun hc => rns_shouldTerminate_none m c hc⟩, ?_⟩
  intro r st2 hr
  unfold processClaim at hr
  dsimp only at hr
  cases hpre : preTry (bootstrapContext claim_data existing_context) (chat_history.getD []) with
  | error e =>
    rw [hpre] at hr
    simp at hr
  | ok q =>
    obtain ⟨ctx1, tr1⟩ := q
    have hctx1 : reasonNotStalled ctx1 := rns_preTry hboot hpre
    rw [hpre] at hr
    dsimp only at hr
    cases hbody : processBody env cfg sto
        (pyStr (ctxGetD ctx1 "claim_id" (vStr "UNKNOWN")))
        (mgrReset (mgrInit cfg)) ctx1 tr1 now with
    | ok p =>
      rw [hbody] at hr
      simp only [Except.ok.injEq, Prod.mk.injEq] at hr
      obtain ⟨h1, -⟩ := hr
      rw [← h1]
      exact processBody_ok_not_stalled henv cfg sto _ _ tr1 now hctx1 p.1 p.2
        (by rw [hbody])
    | error f =>
      rw [hbody] at hr
      simp only [Except.ok.injEq, Prod.mk.injEq] at hr
      obtain ⟨h1, -⟩ := hr
      rw [← h1]
      constructor
      · show vStr "exception" ≠ vStr "stalled"
        decide
      · show "error" ≠ "stalled"
        decide

/-- Claim data for the C10 witness run. -/
def c10Data : Ctx := [("claim_id", vStr "CLM-10")]

/-- The C10 witness run's output. -/
def c10Out : RunResult × Store :=
  (processClaim ⟨[]⟩ {} [] c10Data none none 0).toOption.getD
    (mkErrorResult ⟨"", [], []⟩, [])

/-- Witness for C10 on a concrete full run. -/
theorem process_never_stalled_witness :
    EnvPreserves ⟨[]⟩
    ∧ reasonNotStalled (bootstrapContext c10Data none)
    ∧ processClaim ⟨[]⟩ {} [] c10Data none none 0 = .ok (c10Out.1, c10Out.2)
    ∧ c10Out.1.termination_reason ≠ vStr "stalled"
    ∧ c10Out.1.status ≠ "stalled" := by
  have henv : EnvPreserves ⟨[]⟩ := by
    intro role b hb
    simp [agentsGet] at hb
  have hboot : reasonNotStalled (bootstrapContext c10Data none) := by
    unfold reasonNotStalled
    decide
  have hout : processClaim ⟨[]⟩ {} [] c10Data none none 0 = .ok (c10Out.1, c10Out.2) := rfl
  have hmain := (process_never_stalled ⟨[]⟩ {} [] c10Data none none 0 henv hboot).2
    c10Out.1 c10Out.2 hout
  exact ⟨henv, hboot, hout, hmain.1, hmain.2⟩

/-! ## Adequacy of the Phase-2 loop fuel -/

theorem shouldTerminate_none_false_lt (m : Mgr) (c : Ctx)
    (h : (shouldTerminate m c none).1 = false) :
    m.round_counter < m.max_rounds := by
  unfold shouldTerminate shouldTerminateTail roundsExhausted at h
  repeat' split at h
  all_goals simp_all

/-- Any two fuels above `max_rounds - round_counter` give the same loop
result: the fuel `phase2` passes is enough, so the fuel-out branch of
`phase2Loop` is unreachable and the model's loop agrees with the
unbounded `while True` of the source. -/
theorem phase2Loop_fuel_irrelevant (specs : List (String × AgentBehavior)) :
    ∀ (fuel1 fuel2 : Nat) (m : Mgr) (c : Ctx) (tr : Transcript),
      m.max_rounds - m.round_counter < fuel1 →
      m.max_rounds - m.round_counter < fuel2 →
      phase2Loop specs fuel1 m c tr = phase2Loop specs fuel2 m c tr := by
  intro fuel1
  induction fuel1 with
  | zero =>
    intro fuel2 m c tr h1 h2
    omega
  | succ fuel1 ih =>
    intro fuel2 m c tr h1 h2
    cases fuel2 with
    | zero => omega
    | succ fuel2 =>
      by_cases hb : (shouldTerminate m c none).1 = true
      · simp [phase2Loop, hb]
      · rw [Bool.not_eq_true] at hb
        have hlt := shouldTerminate_none_false_lt m c hb
        cases hinv : invokeSpecialists specs (shouldTerminate m c none).2.1 tr with
        | error f => simp [phase2Loop, hb, hinv]
        | ok p =>
          obtain ⟨c2, tr2⟩ := p
          by_cases hbrk : ((recordRound (shouldTerminate m c none).2.2).enable_human_in_loop
              && truthyO (ctxGet c2 "missing_documents")) = true
          · simp [phase2Loop, hb, hinv, hbrk]
          · rw [Bool.not_eq_true] at hbrk
            have hmgr := shouldTerminate_none_mgr m c
            have hrec1 : (recordRound (shouldTerminate m c none).2.2).max_rounds
                - (recordRound (shouldTerminate m c none).2.2).round_counter < fuel1 := by
              rw [hmgr]
              simp only [recordRound]
              omega
            have hrec2 : (recordRound (shouldTerminate m c none).2.2).max_rounds
                - (recordRound (shouldTerminate m c none).2.2).round_counter < fuel2 := by
              rw [hmgr]
              simp only [recordRound]
              omega
            have hrecur := ih fuel2 (recordRound (shouldTerminate m c none).2.2) c2 tr2 hrec1 hrec2
            simp [phase2Loop, hb, hinv, hbrk, hrecur]
